import Mathlib

/-!
# Fernly serprog responder (`frser.c`): dispatcher, command tables, SPI operation

A shallow embedding of the protocol core of `frser.c`.

* Bytes are `Nat`; a value stored into a `uint8_t` coming from the serial
  link is reduced `% 256` (`serial_getc`).
* A C buffer is represented by the list of bytes stored into it so far
  (its initialised prefix) together with its declared capacity; a store past
  the capacity, or a load past the initialised prefix, is the fault
  `Fault.overrun`.
* The serial link is a list of pending input bytes and a list of bytes
  written so far.  A read from an empty link never returns; this is the
  fault `Fault.starved`, which carries the state in which the run is stuck.
* Every read of a byte, every write of a byte and every SPI transfer is
  appended, in the order of execution, to the event log `Dev.log`.
* The hardware exchange `scriptic_execute(&spi_run)` is not part of the file;
  it is a parameter `spi_run : Spi → Spi` acting on the memory mapped SPI
  controller.
* The loop `for(;;)` of `main` is given pass by pass: `main_loop spi_run n`
  is the effect of its first `n` passes.
-/

namespace Fernly

/-! ## Constants -/

/-- Macro `#define FRSER_NAME "Fernly SPI"`. -/
def FRSER_NAME : String := "Fernly SPI"

/-- Macro `#define CHIP_BUSTYPE_SPI (1 << 3)`. -/
def CHIP_BUSTYPE_SPI : Nat := 1 <<< 3

/-- Macro `#define S_ACK 0x06`. -/
def S_ACK : Nat := 0x06

/-- Macro `#define S_NAK 0x15`. -/
def S_NAK : Nat := 0x15

/-- Macro `#define S_CMD_O_DELAY 0x0E`. -/
def S_CMD_O_DELAY : Nat := 0x0E

/-- Macro `#define S_CMD_S_BUSTYPE 0x12`. -/
def S_CMD_S_BUSTYPE : Nat := 0x12

/-- Macro `#define S_CMD_O_SPIOP 0x13`. -/
def S_CMD_O_SPIOP : Nat := 0x13

/-- Macro `#define S_MAXCMD 0x13`. -/
def S_MAXCMD : Nat := 0x13

/-- Macro `#define S_MAXLEN 0x06`. -/
def S_MAXLEN : Nat := 0x06

/-! ## Constant answers -/

/-- Value of a C array `const char a[n] = { ... }`: the given initialisers,
zero filled up to `n` elements. -/
def c_array (n : Nat) (init : List Nat) : List Nat :=
  init ++ List.replicate (n - init.length) 0

/-- Bytes of a C string literal (without the terminating NUL). -/
def c_str (s : String) : List Nat :=
  s.toList.map Char.toNat

/-- Array `const char ca_iface[3] = { S_ACK, 0x01, 0x00 };` -/
def ca_iface : List Nat := c_array 3 [S_ACK, 0x01, 0x00]

/-- Array `const char ca_bitmap[33] = { S_ACK, 0xBF, 0xC9, 0xF, 0, 0 };` -/
def ca_bitmap : List Nat := c_array 33 [S_ACK, 0xBF, 0xC9, 0xF, 0, 0]

/-- Array `const char ca_pgmname[17] = "\x06" FRSER_NAME;` -/
def ca_pgmname : List Nat := c_array 17 (0x06 :: c_str FRSER_NAME)

/-- Array `const char ca_serbuf[3] = { S_ACK, 2, 0 };` -/
def ca_serbuf : List Nat := c_array 3 [S_ACK, 2, 0]

/-- Array `const char ca_syncnop[2] = { S_NAK, S_ACK };` -/
def ca_syncnop : List Nat := c_array 2 [S_NAK, S_ACK]

/-- Array `const char ca_opbufsz[3] = { S_ACK, 128, 0 };` -/
def ca_opbufsz : List Nat := c_array 3 [S_ACK, 128, 0]

/-- Array `const char ca_wrnlen[4] = { S_ACK, 128, 0, 0 };` -/
def ca_wrnlen : List Nat := c_array 4 [S_ACK, 128, 0, 0]

/-- Array `const char ca_rdnmaxlen[4] = { S_ACK, 128, 0, 0 };` -/
def ca_rdnmaxlen : List Nat := c_array 4 [S_ACK, 128, 0, 0]

/-- Array `const char ca_bustypes[2] = { S_ACK, CHIP_BUSTYPE_SPI };` -/
def ca_bustypes : List Nat := c_array 2 [S_ACK, CHIP_BUSTYPE_SPI]

/-- Type `struct constanswer { uint8_t len; const char* data; }`; `data = none`
is the `NULL` pointer. -/
structure constanswer where
  len : Nat
  data : Option (List Nat)
deriving DecidableEq, Repr

/-- Table `static const struct constanswer const_table[S_MAXCMD+1]`. -/
def const_table : List constanswer :=
  [ ⟨1, some ca_iface⟩,      -- NOP
    ⟨3, some ca_iface⟩,      -- IFACE V
    ⟨33, some ca_bitmap⟩,    -- op bitmap
    ⟨17, some ca_pgmname⟩,   -- programmer name
    ⟨3, some ca_serbuf⟩,     -- serial buffer size
    ⟨2, some ca_bustypes⟩,
    ⟨0, none⟩,
    ⟨3, some ca_opbufsz⟩,    -- operation buffer size
    ⟨4, some ca_wrnlen⟩,     -- write-n max len
    ⟨0, none⟩,               -- read byte
    ⟨0, none⟩,               -- read n
    ⟨1, some ca_iface⟩,      -- init opbuf
    ⟨0, none⟩,               -- opbuf, write-1
    ⟨0, none⟩,               -- opbuf, write-n
    ⟨0, none⟩,               -- opbuf, delay
    ⟨1, some ca_iface⟩,      -- exec opbuf
    ⟨2, some ca_syncnop⟩,    -- sync nop
    ⟨4, some ca_rdnmaxlen⟩,  -- Read-n maximum len
    ⟨0, none⟩,               -- Set bustype
    ⟨0, none⟩ ]              -- SPI operation

/-- Table `static const uint8_t op2len[S_MAXCMD+1]`. -/
def op2len : List Nat :=
  [ 0x00, 0x00, 0x00,   -- NOP, iface, bitmap
    0x00, 0x00, 0x00,   -- progname, serbufsize, bustypes
    0x00, 0x00, 0x00,   -- chipsize, opbufsz, query-n maxlen
    0x03, 0x06, 0x00,   -- read byte, read n, init opbuf
    0x04, 0x00, 0x04,   -- write byte, write n, write delay
    0x00, 0x00, 0x00,   -- Exec opbuf, syncnop, max read-n
    0x01, 0x06 ]        -- Set used bustype, SPI op

/-! ## Machine state -/

/-- The memory mapped SPI controller: the `SPI_DATA` window and the two count
registers `SPI_WRITE_COUNT`, `SPI_READ_COUNT`. -/
structure Spi where
  data : Nat → Nat
  write_count : Nat
  read_count : Nat

/-- One recorded invocation of `spi_cmd_txrx`: its arguments `tx_size`,
`rx_size` and the contents of `tx_buf`. -/
structure SpiCall where
  tx_size : Nat
  rx_size : Nat
  tx_buf : List Nat
deriving DecidableEq, Repr

/-- One step of a run that is visible from outside. -/
inductive Event where
  /-- A byte taken from the serial link (`serial_getc`). -/
  | rd (b : Nat)
  /-- A byte put on the serial link (`serial_putc`, `serial_write`). -/
  | wr (b : Nat)
  /-- An invocation of `spi_cmd_txrx`. -/
  | xfer (c : SpiCall)
deriving DecidableEq, Repr

/-- State of the device as far as `frser.c` touches it.

`rx` are the bytes the host has sent and the device has not read yet, `tx`
the bytes the device has written, oldest first.  `rd` (the bytes read so far),
`calls` (the invocations of `spi_cmd_txrx` so far) and `log` (all reads,
writes and transfers so far, in the order in which they happened) are history
kept for stating properties; no function branches on them. -/
structure Dev where
  rx : List Nat
  rd : List Nat
  tx : List Nat
  spi : Spi
  calls : List SpiCall
  log : List Event

/-- Ways in which a run leaves defined behaviour or fails to return. -/
inductive Fault where
  /-- A read from the serial link with no byte pending: the call blocks, with
  the device in state `d`. -/
  | starved (d : Dev)
  /-- A table indexed outside its bounds. -/
  | index
  /-- A buffer accessed past its capacity or past its initialised part. -/
  | overrun
  /-- A `NULL` pointer handed to a function that reads through it. -/
  | null

/-- Conversion to `uint8_t`. -/
def u8 (b : Nat) : Nat := b % 256

/-! ## Serial shims -/

/-- Function `int serial_putc(uint8_t c)`: writes one byte. -/
def serial_putc (c : Nat) (d : Dev) : Dev :=
  { d with tx := d.tx ++ [c], log := d.log ++ [Event.wr c] }

/-- Function `uint8_t serial_getc(void)`: reads one byte; blocks when none is pending. -/
def serial_getc (d : Dev) : Except Fault (Nat × Dev) :=
  match d.rx with
  | [] => .error (.starved d)
  | b :: rest =>
    .ok (u8 b, { d with rx := rest, rd := d.rd ++ [u8 b], log := d.log ++ [Event.rd (u8 b)] })

/-- Function `void serial_write(const void *d, int bytes)`: writes the first `bytes`
bytes of the array `data`. -/
def serial_write (data : List Nat) (bytes : Nat) (d : Dev) : Except Fault Dev :=
  if bytes ≤ data.length then
    .ok { d with tx := d.tx ++ data.take bytes,
                 log := d.log ++ (data.take bytes).map Event.wr }
  else .error .overrun

/-- The loop of `serial_read`: `for (i=0;i<bytes;i++) d[i] = serial_getc();`
with `k` iterations left, `buf` the bytes stored so far (so `i = buf.length`)
and `cap` the size of the array `d` points to. -/
def serial_read_loop (cap : Nat) : Nat → List Nat → Dev → Except Fault (List Nat × Dev)
  | 0, buf, d => .ok (buf, d)
  | k + 1, buf, d =>
    match serial_getc d with
    | .error e => .error e
    | .ok (c, d1) =>
      if buf.length < cap then serial_read_loop cap k (buf ++ [c]) d1
      else .error .overrun

/-- Function `int serial_read(void *data, int bytes)` into an array of `cap` bytes;
returns the bytes stored. -/
def serial_read (cap : Nat) (bytes : Nat) (d : Dev) : Except Fault (List Nat × Dev) :=
  serial_read_loop cap bytes [] d

/-! ## SPI transfer -/

/-- Call `memcpy(SPI_DATA, tx_buf, tx_size)` on the data window. -/
def memcpy_to_window (win : Nat → Nat) (src : List Nat) (n : Nat) : Nat → Nat :=
  fun i => if i < n then src.getD i 0 else win i

/-- Call `memcpy(rx_buf, SPI_DATA + tx_size, rx_size)`: the bytes copied out. -/
def memcpy_from_window (win : Nat → Nat) (off : Nat) (n : Nat) : List Nat :=
  (List.range n).map (fun i => win (off + i))

/-- Function `static void spi_cmd_txrx(uint8_t tx_size, uint8_t rx_size,
uint8_t *tx_buf, uint8_t *rx_buf)`, with `rx_cap` the size of the array
`rx_buf` points to; returns the bytes stored into `rx_buf`. -/
def spi_cmd_txrx (spi_run : Spi → Spi) (tx_size rx_size : Nat) (tx_buf : List Nat)
    (rx_cap : Nat) (d : Dev) : Except Fault (List Nat × Dev) :=
  if tx_size ≤ tx_buf.length then
    let s1 : Spi := { d.spi with data := memcpy_to_window d.spi.data tx_buf tx_size }
    let s2 : Spi := { s1 with write_count := tx_size }
    let s3 : Spi := { s2 with read_count := rx_size }
    let s4 : Spi := spi_run s3
    if rx_size ≤ rx_cap then
      .ok (memcpy_from_window s4.data tx_size rx_size,
           { d with spi := s4, calls := d.calls ++ [⟨tx_size, rx_size, tx_buf⟩],
                    log := d.log ++ [Event.xfer ⟨tx_size, rx_size, tx_buf⟩] })
    else .error .overrun
  else .error .overrun

/-! ## Protocol -/

/-- Load of `buf[i]` from a buffer whose initialised part is `buf`. -/
def load (buf : List Nat) (i : Nat) : Except Fault Nat :=
  match buf[i]? with
  | some b => .ok b
  | none => .error .overrun

/-- Checked indexing of one of the two command tables. -/
def lookup {α : Type} (table : List α) (op : Nat) : Except Fault α :=
  match table[op]? with
  | some e => .ok e
  | none => .error .index

/-- Function `static void do_cmd_spiop(uint8_t *parbuf)`. -/
def do_cmd_spiop (spi_run : Spi → Spi) (parbuf : List Nat) (d : Dev) : Except Fault Dev :=
  match load parbuf 0 with
  | .error e => .error e
  | .ok sbytes =>
    match load parbuf 3 with
    | .error e => .error e
    | .ok rbytes =>
      match serial_read 256 sbytes d with
      | .error e => .error e
      | .ok (out, d1) =>
        match spi_cmd_txrx spi_run sbytes rbytes out 256 d1 with
        | .error e => .error e
        | .ok (inb, d2) => serial_write inb rbytes (serial_putc S_ACK d2)

/-- Function `static void frser_operation(uint8_t op)`. -/
def frser_operation (spi_run : Spi → Spi) (op : Nat) (d : Dev) : Except Fault Dev :=
  if op > S_MAXCMD then
    .ok (serial_putc S_NAK d)
  else
    match lookup const_table op with
    | .error e => .error e
    | .ok ca =>
      if ca.len ≠ 0 then
        match ca.data with
        | none => .error .null
        | some data => serial_write data ca.len d
      else
        match lookup op2len op with
        | .error e => .error e
        | .ok p_len =>
          match (if p_len ≠ 0 then serial_read S_MAXLEN p_len d else .ok ([], d)) with
          | .error e => .error e
          | .ok (parbuf, d1) =>
            if op = S_CMD_O_DELAY ∨ op = S_CMD_S_BUSTYPE then
              .ok (serial_putc S_ACK d1)
            else if op = S_CMD_O_SPIOP then
              do_cmd_spiop spi_run parbuf d1
            else
              .ok (serial_putc S_NAK d1)

/-! ## Dispatch loop -/

/-- Function `void usb_uart_flush(void)`, declared in `frser.c` and defined
elsewhere: it pushes out the bytes already written and changes nothing of the
state kept here. -/
def usb_uart_flush (d : Dev) : Dev := d

/-- Body of the loop `for(;;)` of `main`:
`frser_operation(serial_getc()); usb_uart_flush();`. -/
def main_loop_body (spi_run : Spi → Spi) (d : Dev) : Except Fault Dev :=
  match serial_getc d with
  | .error e => .error e
  | .ok (op, d1) =>
    match frser_operation spi_run op d1 with
    | .error e => .error e
    | .ok d2 => .ok (usb_uart_flush d2)

/-- The first `n` passes of the loop `for(;;)` of `main`. -/
def main_loop (spi_run : Spi → Spi) : Nat → Dev → Except Fault Dev
  | 0, d => .ok d
  | n + 1, d =>
    match main_loop_body spi_run d with
    | .error e => .error e
    | .ok d1 => main_loop spi_run n d1

/-- A hardware exchange is stateless when the bytes it delivers (the
`read_count` bytes of the data window after the `write_count` transmitted
ones) depend only on the two counts and on the transmitted bytes. -/
def stateless (spi_run : Spi → Spi) : Prop :=
  ∀ s t : Spi, s.write_count = t.write_count → s.read_count = t.read_count →
    (∀ i, i < s.write_count → s.data i = t.data i) →
    ∀ i, i < s.read_count →
      (spi_run s).data (s.write_count + i) = (spi_run t).data (t.write_count + i)

/-! ## Capability bitmap -/

/-- Bit `o mod 8` of payload byte `o div 8` of the capability bitmap, the
payload being the 32 bytes of `ca_bitmap` after the leading `S_ACK`. -/
def bitmap_bit (o : Nat) : Bool :=
  decide ((ca_bitmap.drop 1).getD (o / 8) 0 / 2 ^ (o % 8) % 2 = 1)

/-! ## Example environment -/

/-- An SPI controller with a cleared data window and cleared count registers. -/
def spi_idle : Spi := ⟨fun _ => 0, 0, 0⟩

/-- Example hardware exchange: whatever is sent, the chip answers the three
bytes `AA BB CC`, which the controller places in the data window right after
the `write_count` transmitted bytes (further bytes clocked in read as 0). -/
def chip_aabbcc (s : Spi) : Spi :=
  { s with data := fun i =>
      if i < s.write_count then s.data i
      else if i = s.write_count then 0xAA
      else if i = s.write_count + 1 then 0xBB
      else if i = s.write_count + 2 then 0xCC
      else 0 }

/-- Example request state: an idle device with the bytes
`01 00 00 03 00 00 9F` pending (write count 1, read count 3, payload `9F`). -/
def spiop_example : Dev := ⟨[1, 0, 0, 3, 0, 0, 0x9F], [], [], spi_idle, [], []⟩

/-- Example request state with 261 bytes pending: the request of
`spiop_example` followed by 254 further bytes `00`. -/
def spiop_long_example : Dev :=
  ⟨[1, 0, 0, 3, 0, 0, 0x9F] ++ List.replicate 254 0, [], [], spi_idle, [], []⟩

/-- What a finished run shows from outside: the input still pending, the
bytes read, the bytes written and the recorded SPI transfers (`none` when the
run faulted or blocked). -/
def observe (res : Except Fault Dev) : Option (List Nat × List Nat × List Nat × List SpiCall) :=
  match res with
  | .ok d => some (d.rx, d.rd, d.tx, d.calls)
  | .error _ => none

/-- Events of reading the bytes `l` from the serial link, in order. -/
def reads (l : List Nat) : List Event := l.map (fun b => Event.rd (u8 b))

/-- Events of writing the bytes `l` to the serial link, in order. -/
def writes (l : List Nat) : List Event := l.map Event.wr

/-- The event log of a run that returned, or of a run blocked on the serial
link at the point where it is stuck (`none` for any other fault). -/
def events (res : Except Fault Dev) : Option (List Event) :=
  match res with
  | .ok d => some d.log
  | .error (.starved d) => some d.log
  | .error _ => none

/-! ## Auxiliary facts -/

theorem serial_read_loop_ok (cap : Nat) (k : Nat) (buf : List Nat) (d : Dev)
    (hk : k ≤ d.rx.length) (hcap : buf.length + k ≤ cap) :
    serial_read_loop cap k buf d =
      .ok (buf ++ (d.rx.take k).map u8,
           { d with rx := d.rx.drop k, rd := d.rd ++ (d.rx.take k).map u8,
                    log := d.log ++ reads (d.rx.take k) }) := by
  induction k generalizing buf d with
  | zero => simp [serial_read_loop, reads]
  | succ k ih =>
    obtain ⟨rx, rd, tx, spi, calls, log⟩ := d
    cases rx with
    | nil => simp at hk
    | cons b rest =>
      have hlt : buf.length < cap := by omega
      simp only [List.length_cons, Nat.add_le_add_iff_right] at hk
      have h1 := ih (buf ++ [u8 b])
        ⟨rest, rd ++ [u8 b], tx, spi, calls, log ++ [Event.rd (u8 b)]⟩ hk (by simp; omega)
      simp [serial_read_loop, serial_getc, hlt, h1, reads]

theorem serial_read_loop_starved (cap : Nat) (k : Nat) (buf : List Nat) (d : Dev)
    (hk : d.rx.length < k) (hcap : buf.length + k ≤ cap) :
    serial_read_loop cap k buf d =
      .error (.starved { d with rx := [], rd := d.rd ++ d.rx.map u8,
                                log := d.log ++ reads d.rx }) := by
  induction k generalizing buf d with
  | zero => simp at hk
  | succ k ih =>
    obtain ⟨rx, rd, tx, spi, calls, log⟩ := d
    cases rx with
    | nil => simp [serial_read_loop, serial_getc, reads]
    | cons b rest =>
      have hlt : buf.length < cap := by omega
      simp only [List.length_cons, Nat.add_lt_add_iff_right] at hk
      have h1 := ih (buf ++ [u8 b])
        ⟨rest, rd ++ [u8 b], tx, spi, calls, log ++ [Event.rd (u8 b)]⟩ hk (by simp; omega)
      simp [serial_read_loop, serial_getc, hlt, h1, reads]

theorem serial_read_ok (cap : Nat) (k : Nat) (d : Dev)
    (hk : k ≤ d.rx.length) (hcap : k ≤ cap) :
    serial_read cap k d =
      .ok ((d.rx.take k).map u8,
           { d with rx := d.rx.drop k, rd := d.rd ++ (d.rx.take k).map u8,
                    log := d.log ++ reads (d.rx.take k) }) := by
  have h := serial_read_loop_ok cap k [] d hk (by simpa using hcap)
  simpa [serial_read] using h

theorem serial_read_starved (cap : Nat) (k : Nat) (d : Dev)
    (hk : d.rx.length < k) (hcap : k ≤ cap) :
    serial_read cap k d =
      .error (.starved { d with rx := [], rd := d.rd ++ d.rx.map u8,
                                log := d.log ++ reads d.rx }) := by
  have h := serial_read_loop_starved cap k [] d hk (by simpa using hcap)
  simpa [serial_read] using h

theorem u8_lt (b : Nat) : u8 b < 256 := by
  unfold u8; omega

theorem u8_of_lt {b : Nat} (h : b < 256) : u8 b = b := by
  unfold u8; omega

theorem map_u8_of_lt {l : List Nat} (h : ∀ b ∈ l, b < 256) : l.map u8 = l := by
  induction l with
  | nil => rfl
  | cons a t ih =>
    simp only [List.mem_cons, forall_eq_or_imp] at h
    simp [u8_of_lt h.1, ih h.2]

theorem memcpy_from_window_length (win : Nat → Nat) (off n : Nat) :
    (memcpy_from_window win off n).length = n := by
  simp [memcpy_from_window]

/-- The SPI operation on a complete request: six header bytes, of which
byte 0 is the write count and byte 3 the read count, then the payload. -/
theorem frser_operation_spiop_ok (spi_run : Spi → Spi) (d : Dev)
    (h0 h1 h2 h3 h4 h5 : Nat) (rest : List Nat)
    (hrx : d.rx = h0 :: h1 :: h2 :: h3 :: h4 :: h5 :: rest)
    (hp : u8 h0 ≤ rest.length) :
    frser_operation spi_run 0x13 d =
      .ok { rx := rest.drop (u8 h0),
            rd := d.rd ++ [u8 h0, u8 h1, u8 h2, u8 h3, u8 h4, u8 h5]
                    ++ (rest.take (u8 h0)).map u8,
            tx := d.tx ++ S_ACK ::
                    memcpy_from_window
                      (spi_run ⟨memcpy_to_window d.spi.data ((rest.take (u8 h0)).map u8) (u8 h0),
                                u8 h0, u8 h3⟩).data (u8 h0) (u8 h3),
            spi := spi_run ⟨memcpy_to_window d.spi.data ((rest.take (u8 h0)).map u8) (u8 h0),
                            u8 h0, u8 h3⟩,
            calls := d.calls ++ [⟨u8 h0, u8 h3, (rest.take (u8 h0)).map u8⟩],
            log := d.log ++ reads [h0, h1, h2, h3, h4, h5] ++ reads (rest.take (u8 h0))
                    ++ [Event.xfer ⟨u8 h0, u8 h3, (rest.take (u8 h0)).map u8⟩]
                    ++ writes (S_ACK ::
                        memcpy_from_window
                          (spi_run ⟨memcpy_to_window d.spi.data ((rest.take (u8 h0)).map u8)
                                      (u8 h0), u8 h0, u8 h3⟩).data (u8 h0) (u8 h3)) } := by
  obtain ⟨rx, rd, tx, spi, calls, log⟩ := d
  simp only at hrx
  subst hrx
  have hw := u8_lt h0
  have hr := u8_lt h3
  have hread : serial_read 256 (u8 h0) ⟨rest, rd ++ [u8 h0, u8 h1, u8 h2, u8 h3, u8 h4, u8 h5],
      tx, spi, calls, log ++ reads [h0, h1, h2, h3, h4, h5]⟩ = _ :=
    serial_read_ok 256 (u8 h0) _ hp (by omega)
  have hhdr : serial_read S_MAXLEN 6
      ⟨h0 :: h1 :: h2 :: h3 :: h4 :: h5 :: rest, rd, tx, spi, calls, log⟩
      = _ := serial_read_ok S_MAXLEN 6 _ (by simp) (by decide)
  simp only [List.take_succ_cons, List.take_zero, List.drop_succ_cons, List.drop_zero,
    List.map_cons, List.map_nil] at hhdr
  have hlen : u8 h0 ≤ ((rest.take (u8 h0)).map u8).length := by
    simp [List.length_take, hp]
  have hin : ∀ win : Nat → Nat, List.take (u8 h3) (memcpy_from_window win (u8 h0) (u8 h3)) =
      memcpy_from_window win (u8 h0) (u8 h3) := fun win =>
    List.take_of_length_le (by rw [memcpy_from_window_length])
  simp only [frser_operation, S_MAXCMD, lookup, const_table, op2len, S_CMD_O_DELAY,
    S_CMD_S_BUSTYPE, S_CMD_O_SPIOP]
  simp only [gt_iff_lt, lt_self_iff_false, ↓reduceIte, List.getElem?_cons_succ,
    List.getElem?_cons_zero, ne_eq, not_true_eq_false, OfNat.ofNat_ne_zero, not_false_eq_true,
    hhdr, Nat.reduceEqDiff, or_self]
  simp only [do_cmd_spiop, load, List.getElem?_cons_succ, List.getElem?_cons_zero, hread,
    spi_cmd_txrx, hlen, ↓reduceIte, Nat.le_of_lt hr, serial_write, serial_putc,
    memcpy_from_window_length, le_refl, hin]
  simp [reads, writes]

theorem frser_operation_spiop_starved_header (spi_run : Spi → Spi) (d : Dev)
    (hrx : d.rx.length < 6) :
    frser_operation spi_run 0x13 d =
      .error (.starved { d with rx := [], rd := d.rd ++ d.rx.map u8,
                                log := d.log ++ reads d.rx }) := by
  have hhdr := serial_read_starved S_MAXLEN 6 d hrx (by decide)
  simp [frser_operation, S_MAXCMD, lookup, const_table, op2len, hhdr]

theorem frser_operation_spiop_starved_payload (spi_run : Spi → Spi) (d : Dev)
    (h0 h1 h2 h3 h4 h5 : Nat) (rest : List Nat)
    (hrx : d.rx = h0 :: h1 :: h2 :: h3 :: h4 :: h5 :: rest)
    (hp : rest.length < u8 h0) :
    frser_operation spi_run 0x13 d =
      .error (.starved { d with rx := [], rd := d.rd ++ d.rx.map u8,
                                log := d.log ++ reads d.rx }) := by
  obtain ⟨rx, rd, tx, spi, calls, log⟩ := d
  simp only at hrx
  subst hrx
  have hw := u8_lt h0
  have hread : serial_read 256 (u8 h0) ⟨rest, rd ++ [u8 h0, u8 h1, u8 h2, u8 h3, u8 h4, u8 h5],
      tx, spi, calls, log ++ reads [h0, h1, h2, h3, h4, h5]⟩ = _ :=
    serial_read_starved 256 (u8 h0) _ hp (by omega)
  have hhdr : serial_read S_MAXLEN 6
      ⟨h0 :: h1 :: h2 :: h3 :: h4 :: h5 :: rest, rd, tx, spi, calls, log⟩
      = _ := serial_read_ok S_MAXLEN 6 _ (by simp) (by decide)
  simp only [List.take_succ_cons, List.take_zero, List.drop_succ_cons, List.drop_zero,
    List.map_cons, List.map_nil] at hhdr
  simp only [frser_operation, S_MAXCMD, lookup, const_table, op2len, S_CMD_O_DELAY,
    S_CMD_S_BUSTYPE, S_CMD_O_SPIOP]
  simp only [gt_iff_lt, lt_self_iff_false, ↓reduceIte, List.getElem?_cons_succ,
    List.getElem?_cons_zero, ne_eq, not_true_eq_false, OfNat.ofNat_ne_zero, not_false_eq_true,
    hhdr, Nat.reduceEqDiff, or_self]
  simp only [do_cmd_spiop, load, List.getElem?_cons_succ, List.getElem?_cons_zero, hread]
  simp [reads]

/-- An opcode in range with an empty constant answer that is not the SPI
operation: the parameters are read, then one byte is written. -/
theorem frser_operation_params_ok (spi_run : Spi → Spi) (o : Nat) (d : Dev)
    (ca : constanswer) (p : Nat) (ho : o ≤ S_MAXCMD) (hca : const_table[o]? = some ca)
    (hlen : ca.len = 0) (hp : op2len[o]? = some p) (hne : o ≠ S_CMD_O_SPIOP)
    (hrx : p ≤ d.rx.length) :
    frser_operation spi_run o d =
      .ok { d with rx := d.rx.drop p, rd := d.rd ++ (d.rx.take p).map u8,
                   tx := d.tx ++ [if o = S_CMD_O_DELAY ∨ o = S_CMD_S_BUSTYPE
                                  then S_ACK else S_NAK],
                   log := d.log ++ reads (d.rx.take p)
                            ++ writes [if o = S_CMD_O_DELAY ∨ o = S_CMD_S_BUSTYPE
                                       then S_ACK else S_NAK] } := by
  unfold S_MAXCMD at ho
  unfold S_CMD_O_SPIOP at hne
  interval_cases o <;> simp [const_table] at hca <;> subst hca <;>
    simp at hlen <;> simp [op2len] at hp <;> subst hp <;>
    first
    | exact absurd rfl hne
    | (have hread := serial_read_ok S_MAXLEN _ d hrx (by decide)
       simp [frser_operation, S_MAXCMD, lookup, const_table, op2len, S_CMD_O_DELAY,
         S_CMD_S_BUSTYPE, S_CMD_O_SPIOP, serial_putc, hread, reads, writes])

theorem frser_operation_params_starved (spi_run : Spi → Spi) (o : Nat) (d : Dev)
    (ca : constanswer) (p : Nat) (ho : o ≤ S_MAXCMD) (hca : const_table[o]? = some ca)
    (hlen : ca.len = 0) (hp : op2len[o]? = some p) (hne : o ≠ S_CMD_O_SPIOP)
    (hrx : d.rx.length < p) :
    frser_operation spi_run o d =
      .error (.starved { d with rx := [], rd := d.rd ++ d.rx.map u8,
                                log := d.log ++ reads d.rx }) := by
  unfold S_MAXCMD at ho
  unfold S_CMD_O_SPIOP at hne
  interval_cases o <;> simp [const_table] at hca <;> subst hca <;>
    simp at hlen <;> simp [op2len] at hp <;> subst hp <;>
    first
    | exact absurd rfl hne
    | exact absurd hrx (Nat.not_lt_zero _)
    | (have hread := serial_read_starved S_MAXLEN _ d hrx (by decide)
       simp [frser_operation, S_MAXCMD, lookup, const_table, op2len, hread])

theorem frser_operation_const_ok (spi_run : Spi → Spi) (o : Nat) (d : Dev)
    (ca : constanswer) (ho : o ≤ S_MAXCMD) (hca : const_table[o]? = some ca)
    (hlen : ca.len ≠ 0) :
    ∃ data, ca.data = some data ∧ ca.len ≤ data.length ∧
      frser_operation spi_run o d =
        .ok { d with tx := d.tx ++ data.take ca.len,
                     log := d.log ++ writes (data.take ca.len) } := by
  have key : ∀ (n : Nat) (data : List Nat), n ≤ data.length →
      serial_write data n d =
        .ok { d with tx := d.tx ++ data.take n, log := d.log ++ writes (data.take n) } :=
    fun n data hn => by simp [serial_write, hn, writes]
  unfold S_MAXCMD at ho
  interval_cases o <;> simp [const_table] at hca <;> subst hca <;>
    first
    | exact absurd rfl hlen
    | (refine ⟨_, rfl, by decide, ?_⟩
       simp only [frser_operation, S_MAXCMD, lookup, const_table]
       simp only [gt_iff_lt, Nat.not_ofNat_lt_one, Nat.lt_irrefl, ↓reduceIte,
         List.getElem?_cons_succ, List.getElem?_cons_zero, ne_eq, OfNat.ofNat_ne_zero,
         one_ne_zero, not_false_eq_true]
       first
       | exact key _ _ (by decide)
       | (simp; exact key _ _ (by decide)))

theorem const_table_defined (o : Nat) (ho : o ≤ S_MAXCMD) :
    ∃ ca, const_table[o]? = some ca := by
  unfold S_MAXCMD at ho
  interval_cases o <;> exact ⟨_, rfl⟩

theorem op2len_defined (o : Nat) (ho : o ≤ S_MAXCMD) :
    ∃ p, op2len[o]? = some p := by
  unfold S_MAXCMD at ho
  interval_cases o <;> exact ⟨_, rfl⟩

theorem six_or_more {l : List Nat} (h : 6 ≤ l.length) :
    ∃ a b c d e f rest, l = a :: b :: c :: d :: e :: f :: rest := by
  rcases l with _ | ⟨a, _ | ⟨b, _ | ⟨c, _ | ⟨d, _ | ⟨e, _ | ⟨f, rest⟩⟩⟩⟩⟩⟩ <;>
    simp at h
  exact ⟨a, b, c, d, e, f, rest, rfl⟩

/-- Every run of `frser_operation` either returns or blocks on the serial
link; no other fault is reachable. -/
theorem frser_operation_total (spi_run : Spi → Spi) (o : Nat) (d : Dev) :
    (∃ d2, frser_operation spi_run o d = .ok d2) ∨
    frser_operation spi_run o d =
      .error (.starved { d with rx := [], rd := d.rd ++ d.rx.map u8,
                                log := d.log ++ reads d.rx }) := by
  by_cases hmax : S_MAXCMD < o
  · exact Or.inl ⟨serial_putc S_NAK d, by simp [frser_operation, hmax]⟩
  · have ho : o ≤ S_MAXCMD := Nat.le_of_not_lt hmax
    obtain ⟨ca, hca⟩ := const_table_defined o ho
    obtain ⟨p, hp⟩ := op2len_defined o ho
    by_cases hlen : ca.len = 0
    · by_cases hop : o = S_CMD_O_SPIOP
      · subst hop
        by_cases h6 : d.rx.length < 6
        · exact Or.inr (frser_operation_spiop_starved_header spi_run d h6)
        · obtain ⟨h0, h1, h2, h3, h4, h5, rest, hrx⟩ := six_or_more (Nat.le_of_not_lt h6)
          by_cases hpay : u8 h0 ≤ rest.length
          · exact Or.inl ⟨_, frser_operation_spiop_ok spi_run d h0 h1 h2 h3 h4 h5 rest hrx hpay⟩
          · exact Or.inr (frser_operation_spiop_starved_payload spi_run d h0 h1 h2 h3 h4 h5
              rest hrx (Nat.lt_of_not_le hpay))
      · by_cases hrx : p ≤ d.rx.length
        · exact Or.inl ⟨_, frser_operation_params_ok spi_run o d ca p ho hca hlen hp hop hrx⟩
        · exact Or.inr (frser_operation_params_starved spi_run o d ca p ho hca hlen hp hop
            (Nat.lt_of_not_le hrx))
    · obtain ⟨data, _, _, h⟩ := frser_operation_const_ok spi_run o d ca ho hca hlen
      exact Or.inl ⟨_, h⟩

theorem serial_read_no_overrun (cap : Nat) (k : Nat) (d : Dev) (hcap : k ≤ cap) :
    serial_read cap k d ≠ .error .overrun := by
  intro h
  by_cases hk : k ≤ d.rx.length
  · rw [serial_read_ok cap k d hk hcap] at h
    cases h
  · rw [serial_read_starved cap k d (Nat.lt_of_not_le hk) hcap] at h
    cases h

theorem frser_operation_no_overrun (spi_run : Spi → Spi) (o : Nat) (d : Dev) :
    frser_operation spi_run o d ≠ .error .overrun := by
  intro h
  rcases frser_operation_total spi_run o d with ⟨d2, hok⟩ | hst
  · rw [hok] at h
    cases h
  · rw [hst] at h
    cases h

/-- Shape of the reply of a run that returns, by class of opcode. -/
theorem frser_operation_reply (spi_run : Spi → Spi) (o : Nat) (d d1 : Dev)
    (h : frser_operation spi_run o d = .ok d1) :
    ∃ reply, d1.tx = d.tx ++ reply ∧
      ((S_MAXCMD < o ∧ reply = [S_NAK]) ∨
       (o ≤ S_MAXCMD ∧ ∃ ca data, const_table[o]? = some ca ∧ ca.len ≠ 0 ∧
          ca.data = some data ∧ reply = data.take ca.len) ∨
       (o ≤ S_MAXCMD ∧ o ≠ S_CMD_O_SPIOP ∧ (∃ ca, const_table[o]? = some ca ∧ ca.len = 0) ∧
          reply = [if o = S_CMD_O_DELAY ∨ o = S_CMD_S_BUSTYPE then S_ACK else S_NAK]) ∨
       (o = S_CMD_O_SPIOP ∧ ∃ inb, reply = S_ACK :: inb)) := by
  by_cases hmax : S_MAXCMD < o
  · have hok : frser_operation spi_run o d = .ok (serial_putc S_NAK d) := by
      simp [frser_operation, hmax]
    rw [hok] at h
    cases h
    exact ⟨_, rfl, Or.inl ⟨hmax, rfl⟩⟩
  · have ho : o ≤ S_MAXCMD := Nat.le_of_not_lt hmax
    obtain ⟨ca, hca⟩ := const_table_defined o ho
    obtain ⟨p, hp⟩ := op2len_defined o ho
    by_cases hlen : ca.len = 0
    · by_cases hop : o = S_CMD_O_SPIOP
      · subst hop
        by_cases h6 : d.rx.length < 6
        · have hst0 : frser_operation spi_run S_CMD_O_SPIOP d = _ :=
            frser_operation_spiop_starved_header spi_run d h6
          rw [hst0] at h
          cases h
        · obtain ⟨h0, h1, h2, h3, h4, h5, rest, hrx⟩ := six_or_more (Nat.le_of_not_lt h6)
          by_cases hpay : u8 h0 ≤ rest.length
          · have hok := frser_operation_spiop_ok spi_run d h0 h1 h2 h3 h4 h5 rest hrx hpay
            have hok2 : frser_operation spi_run S_CMD_O_SPIOP d = _ := hok
            rw [hok2] at h
            cases h
            exact ⟨_, rfl, Or.inr (Or.inr (Or.inr ⟨rfl, _, rfl⟩))⟩
          · have hst := frser_operation_spiop_starved_payload spi_run d h0 h1 h2 h3 h4 h5
              rest hrx (Nat.lt_of_not_le hpay)
            have hst2 : frser_operation spi_run S_CMD_O_SPIOP d = _ := hst
            rw [hst2] at h
            cases h
      · by_cases hrx : p ≤ d.rx.length
        · rw [frser_operation_params_ok spi_run o d ca p ho hca hlen hp hop hrx] at h
          cases h
          exact ⟨_, rfl, Or.inr (Or.inr (Or.inl ⟨ho, hop, ⟨ca, hca, hlen⟩, rfl⟩))⟩
        · rw [frser_operation_params_starved spi_run o d ca p ho hca hlen hp hop
            (Nat.lt_of_not_le hrx)] at h
          cases h
    · obtain ⟨data, hdata, _, hok⟩ := frser_operation_const_ok spi_run o d ca ho hca hlen
      rw [hok] at h
      cases h
      exact ⟨_, rfl, Or.inr (Or.inl ⟨ho, ca, data, hca, hlen, hdata, rfl⟩)⟩

/-- With 261 bytes pending (six header bytes and the longest payload) every
run returns. -/
theorem frser_operation_returns (spi_run : Spi → Spi) (o : Nat) (d : Dev)
    (hlong : 261 ≤ d.rx.length) : ∃ d1, frser_operation spi_run o d = .ok d1 := by
  rcases frser_operation_total spi_run o d with hok | hst
  · exact hok
  · exfalso
    by_cases hmax : S_MAXCMD < o
    · simp [frser_operation, hmax] at hst
    · have ho : o ≤ S_MAXCMD := Nat.le_of_not_lt hmax
      obtain ⟨ca, hca⟩ := const_table_defined o ho
      obtain ⟨p, hp⟩ := op2len_defined o ho
      by_cases hlen : ca.len = 0
      · by_cases hop : o = S_CMD_O_SPIOP
        · subst hop
          obtain ⟨h0, h1, h2, h3, h4, h5, rest, hrx⟩ :=
            six_or_more (l := d.rx) (by omega)
          have hw := u8_lt h0
          have hrest : u8 h0 ≤ rest.length := by
            rw [hrx] at hlong
            simp only [List.length_cons] at hlong
            omega
          have hok := frser_operation_spiop_ok spi_run d h0 h1 h2 h3 h4 h5 rest hrx hrest
          have hok2 : frser_operation spi_run S_CMD_O_SPIOP d = _ := hok
          rw [hok2] at hst
          cases hst
        · have hle : p ≤ d.rx.length := by
            have : p ≤ 6 := by
              unfold S_MAXCMD at ho
              interval_cases o <;> simp [op2len] at hp <;> subst hp <;> decide
            omega
          rw [frser_operation_params_ok spi_run o d ca p ho hca hlen hp hop hle] at hst
          cases hst
      · obtain ⟨data, _, _, hok⟩ := frser_operation_const_ok spi_run o d ca ho hca hlen
        rw [hok] at hst
        cases hst

set_option maxRecDepth 100000 in
theorem bitmap_bit_set_iff (o : Nat) (ho : o < 256) :
    bitmap_bit o = true ↔
      o ∈ [0x00, 0x01, 0x02, 0x03, 0x04, 0x05, 0x07, 0x08, 0x0B, 0x0E, 0x0F, 0x10, 0x11,
           0x12, 0x13] := by
  revert o
  decide

theorem cons_of_head_some {l : List Nat} {b : Nat} (h : l.head? = some b) :
    ∃ rest, l = b :: rest := by
  cases l with
  | nil => simp at h
  | cons x t =>
    simp at h
    subst h
    exact ⟨t, rfl⟩

theorem const_reply_head (o : Nat) (ca : constanswer) (data : List Nat) (ho : o ≤ S_MAXCMD)
    (hca : const_table[o]? = some ca) (hlen : ca.len ≠ 0) (hdata : ca.data = some data) :
    (data.take ca.len).head? = some S_ACK ∨ (data.take ca.len).head? = some S_NAK := by
  unfold S_MAXCMD at ho
  interval_cases o <;> simp [const_table] at hca <;> subst hca <;>
    first
    | exact absurd rfl hlen
    | (cases hdata; decide)

/-- A run that returns replies `S_NAK` alone exactly for the opcodes above
`S_MAXCMD` and for 0x06, 0x09, 0x0A, 0x0C, 0x0D. -/
theorem reply_not_nak_iff (spi_run : Spi → Spi) (o : Nat) (d d1 : Dev)
    (h : frser_operation spi_run o d = .ok d1) :
    d1.tx ≠ d.tx ++ [S_NAK] ↔
      o ∈ [0x00, 0x01, 0x02, 0x03, 0x04, 0x05, 0x07, 0x08, 0x0B, 0x0E, 0x0F, 0x10, 0x11,
           0x12, 0x13] := by
  obtain ⟨reply, htx, hcls⟩ := frser_operation_reply spi_run o d d1 h
  have hiff : d1.tx ≠ d.tx ++ [S_NAK] ↔ reply ≠ [S_NAK] := by
    rw [htx]
    simp
  rw [hiff]
  rcases hcls with ⟨hmax, hr⟩ | ⟨ho, ca, data, hca, hlen, hdata, hr⟩ |
      ⟨ho, hop, ⟨ca, hca, hlen⟩, hr⟩ | ⟨hop, inb, hr⟩
  · subst hr
    unfold S_MAXCMD at hmax
    simp
    omega
  · subst hr
    unfold S_MAXCMD at ho
    interval_cases o <;> simp [const_table] at hca <;> subst hca <;>
      first
      | exact absurd rfl hlen
      | (cases hdata; decide)
  · subst hr
    unfold S_MAXCMD at ho
    unfold S_CMD_O_SPIOP at hop
    interval_cases o <;> simp [const_table] at hca <;> subst hca <;>
      first
      | exact absurd hlen (by decide)
      | exact absurd rfl hop
      | decide
  · subst hr
    subst hop
    simp [S_CMD_O_SPIOP, S_ACK, S_NAK]

theorem stateless_received (spi_run : Spi → Spi) (hs : stateless spi_run)
    (win1 win2 : Nat → Nat) (src : List Nat) (w r : Nat) :
    memcpy_from_window (spi_run ⟨memcpy_to_window win1 src w, w, r⟩).data w r =
      memcpy_from_window (spi_run ⟨memcpy_to_window win2 src w, w, r⟩).data w r := by
  unfold memcpy_from_window
  apply List.map_congr_left
  intro i hi
  have hir : i < r := List.mem_range.mp hi
  exact hs ⟨memcpy_to_window win1 src w, w, r⟩ ⟨memcpy_to_window win2 src w, w, r⟩ rfl rfl
    (fun j hj => by
      have hj2 : j < w := hj
      simp [memcpy_to_window, hj2]) i hir

/-- A run that returns consumed a prefix of the pending input and appended a
reply; with a stateless hardware exchange, any run on a state whose pending
input starts with the same prefix consumes exactly that prefix and appends
the same reply, whatever that state has read, written or transferred
before. -/
theorem frser_operation_replay (spi_run : Spi → Spi) (hs : stateless spi_run)
    (o : Nat) (d d1 : Dev) (h : frser_operation spi_run o d = .ok d1) :
    ∃ n reply, n ≤ d.rx.length ∧ d1.rx = d.rx.drop n ∧ d1.tx = d.tx ++ reply ∧
      ∀ (e : Dev) (more : List Nat), e.rx = d.rx.take n ++ more →
        ∃ e1, frser_operation spi_run o e = .ok e1 ∧ e1.rx = more ∧
          e1.tx = e.tx ++ reply := by
  by_cases hmax : S_MAXCMD < o
  · have hok : ∀ x : Dev, frser_operation spi_run o x = .ok (serial_putc S_NAK x) :=
      fun x => by simp [frser_operation, hmax]
    rw [hok d] at h
    cases h
    refine ⟨0, [S_NAK], Nat.zero_le _, rfl, rfl, ?_⟩
    intro e more he
    exact ⟨_, hok e, by simpa using he, rfl⟩
  · have ho : o ≤ S_MAXCMD := Nat.le_of_not_lt hmax
    obtain ⟨ca, hca⟩ := const_table_defined o ho
    obtain ⟨p, hp⟩ := op2len_defined o ho
    by_cases hlen : ca.len = 0
    · by_cases hop : o = S_CMD_O_SPIOP
      · subst hop
        by_cases h6 : d.rx.length < 6
        · have hst0 : frser_operation spi_run S_CMD_O_SPIOP d = _ :=
            frser_operation_spiop_starved_header spi_run d h6
          rw [hst0] at h
          cases h
        · obtain ⟨h0, h1, h2, h3, h4, h5, rest, hrx⟩ := six_or_more (Nat.le_of_not_lt h6)
          by_cases hpay : u8 h0 ≤ rest.length
          · have hok : frser_operation spi_run S_CMD_O_SPIOP d = _ :=
              frser_operation_spiop_ok spi_run d h0 h1 h2 h3 h4 h5 rest hrx hpay
            rw [hok] at h
            cases h
            refine ⟨6 + u8 h0, _, ?_, ?_, rfl, ?_⟩
            · rw [hrx]
              simp only [List.length_cons]
              omega
            · rw [hrx]
              simp [Nat.add_comm 6 (u8 h0), List.drop_succ_cons]
            · intro e more he
              have htk : List.take (u8 h0) (List.take (u8 h0) rest ++ more)
                  = List.take (u8 h0) rest := by
                rw [List.take_append_of_le_length (by simp [List.length_take, hpay])]
                simp
              have hdr : List.drop (u8 h0) (List.take (u8 h0) rest ++ more) = more := by
                apply List.drop_left'
                simp [List.length_take, hpay]
              have he2 : e.rx = h0 :: h1 :: h2 :: h3 :: h4 :: h5 ::
                  (List.take (u8 h0) rest ++ more) := by
                rw [he, hrx]
                simp [Nat.add_comm 6 (u8 h0), List.take_succ_cons]
              have hok2 : frser_operation spi_run S_CMD_O_SPIOP e = _ :=
                frser_operation_spiop_ok spi_run e h0 h1 h2 h3 h4 h5
                  (List.take (u8 h0) rest ++ more) he2
                  (by simp [List.length_take, hpay])
              rw [htk, hdr] at hok2
              refine ⟨_, hok2, rfl, ?_⟩
              simp only
              rw [stateless_received spi_run hs e.spi.data d.spi.data]
          · have hst : frser_operation spi_run S_CMD_O_SPIOP d = _ :=
              frser_operation_spiop_starved_payload spi_run d h0 h1 h2 h3 h4 h5
                rest hrx (Nat.lt_of_not_le hpay)
            rw [hst] at h
            cases h
      · by_cases hrx : p ≤ d.rx.length
        · rw [frser_operation_params_ok spi_run o d ca p ho hca hlen hp hop hrx] at h
          cases h
          refine ⟨p, _, hrx, rfl, rfl, ?_⟩
          intro e more he
          have hlt : (List.take p d.rx).length = p := by
            simp [List.length_take, hrx]
          have hle : p ≤ e.rx.length := by
            rw [he, List.length_append, hlt]
            omega
          refine ⟨_, frser_operation_params_ok spi_run o e ca p ho hca hlen hp hop hle, ?_, rfl⟩
          simp only
          rw [he]
          exact List.drop_left' hlt
        · rw [frser_operation_params_starved spi_run o d ca p ho hca hlen hp hop
            (Nat.lt_of_not_le hrx)] at h
          cases h
    · obtain ⟨data, hdata, _, hok⟩ := frser_operation_const_ok spi_run o d ca ho hca hlen
      rw [hok] at h
      cases h
      refine ⟨0, data.take ca.len, Nat.zero_le _, rfl, rfl, ?_⟩
      intro e more he
      obtain ⟨data2, hdata2, _, hok2⟩ := frser_operation_const_ok spi_run o e ca ho hca hlen
      have hd : data2 = data := by
        rw [hdata] at hdata2
        cases hdata2
        rfl
      subst hd
      exact ⟨_, hok2, by simpa using he, rfl⟩

theorem main_loop_body_cons (spi_run : Spi → Spi) (d : Dev) (op : Nat) (bytes : List Nat)
    (hrx : d.rx = op :: bytes) :
    main_loop_body spi_run d =
      frser_operation spi_run (u8 op)
        { d with rx := bytes, rd := d.rd ++ [u8 op], log := d.log ++ [Event.rd (u8 op)] } := by
  unfold main_loop_body serial_getc
  rw [hrx]
  simp only
  cases frser_operation spi_run (u8 op)
    { d with rx := bytes, rd := d.rd ++ [u8 op], log := d.log ++ [Event.rd (u8 op)] } <;> rfl

theorem spiop_long_example_length : 261 ≤ spiop_long_example.rx.length := by
  show 261 ≤ ([1, 0, 0, 3, 0, 0, 0x9F] ++ List.replicate 254 0).length
  rw [List.length_append, List.length_replicate]
  decide

theorem chip_aabbcc_stateless : stateless chip_aabbcc := by
  intro s t hw hr _ i _
  simp [chip_aabbcc, hw]

/-- The reply of a run that returns is not empty and starts with `S_ACK` or
`S_NAK`. -/
theorem frser_operation_reply_head (spi_run : Spi → Spi) (o : Nat) (d d1 : Dev)
    (h : frser_operation spi_run o d = .ok d1) :
    ∃ b rest, d1.tx = d.tx ++ b :: rest ∧ (b = S_ACK ∨ b = S_NAK) := by
  obtain ⟨reply, htx, hcls⟩ := frser_operation_reply spi_run o d d1 h
  rcases hcls with ⟨_, hr⟩ | ⟨ho, ca, data, hca, hlen, hdata, hr⟩ |
      ⟨_, _, _, hr⟩ | ⟨_, inb, hr⟩
  · exact ⟨S_NAK, [], by rw [htx, hr], Or.inr rfl⟩
  · rcases const_reply_head o ca data ho hca hlen hdata with hh | hh
    · obtain ⟨rest, hrest⟩ := cons_of_head_some hh
      exact ⟨S_ACK, rest, by rw [htx, hr, hrest], Or.inl rfl⟩
    · obtain ⟨rest, hrest⟩ := cons_of_head_some hh
      exact ⟨S_NAK, rest, by rw [htx, hr, hrest], Or.inr rfl⟩
  · by_cases hc : o = S_CMD_O_DELAY ∨ o = S_CMD_S_BUSTYPE
    · exact ⟨S_ACK, [], by rw [htx, hr, if_pos hc], Or.inl rfl⟩
    · exact ⟨S_NAK, [], by rw [htx, hr, if_neg hc], Or.inr rfl⟩
  · exact ⟨S_ACK, inb, by rw [htx, hr], Or.inl rfl⟩

/-- The reply of a run that returns is not empty, and it differs from the
single byte `S_NAK` exactly when the opcode's bit is set in the capability
bitmap. -/
theorem reply_matches_bitmap (spi_run : Spi → Spi) (o : Nat) (d d1 : Dev)
    (ho : o < 256) (h : frser_operation spi_run o d = .ok d1) :
    ∃ reply, d1.tx = d.tx ++ reply ∧ reply ≠ [] ∧
      (bitmap_bit o = true ↔ reply ≠ [S_NAK]) := by
  obtain ⟨b, rest, htx, _⟩ := frser_operation_reply_head spi_run o d d1 h
  refine ⟨b :: rest, htx, List.cons_ne_nil _ _, ?_⟩
  rw [bitmap_bit_set_iff o ho, ← reply_not_nak_iff spi_run o d d1 h, htx]
  simp

/-! ## Theorems -/

/-- C1: for every opcode above `S_MAXCMD` (0x14..0xFF, and in the model any
larger number), `frser_operation` returns, having written the single byte
0x15 and nothing else; it reads no byte, whatever input is pending, and
touches neither the SPI controller nor the rest of the history: the only
event of the run is the write of 0x15. -/
theorem frser_operation_above_max (spi_run : Spi → Spi) (o : Nat) (d : Dev)
    (h : S_MAXCMD < o) :
    frser_operation spi_run o d =
      .ok { d with tx := d.tx ++ [0x15], log := d.log ++ [Event.wr 0x15] } := by
  simp [frser_operation, h, serial_putc, S_NAK]

/-- Witness of C1 at opcode 0x14 with three bytes pending. -/
theorem frser_operation_above_max_witness :
    S_MAXCMD < 0x14 ∧
    frser_operation id 0x14 ⟨[1, 2, 3], [], [], ⟨fun _ => 0, 0, 0⟩, [], []⟩ =
      .ok ⟨[1, 2, 3], [], [0x15], ⟨fun _ => 0, 0, 0⟩, [], [Event.wr 0x15]⟩ :=
  ⟨by decide, frser_operation_above_max id 0x14 _ (by decide)⟩

/-- C2: for every opcode `o ≤ S_MAXCMD` whose `const_table` entry `ca` has
non-zero length, the entry points to an array `data` of at least `ca.len`
bytes and `frser_operation o` returns having written exactly the first
`ca.len` bytes of `data`, in order; nothing is read and nothing else
changes: the events of the run are these writes alone. -/
theorem frser_operation_const_answer (spi_run : Spi → Spi) (o : Nat) (d : Dev)
    (ca : constanswer) (ho : o ≤ S_MAXCMD) (hca : const_table[o]? = some ca)
    (hlen : ca.len ≠ 0) :
    ∃ data, ca.data = some data ∧ ca.len ≤ data.length ∧
      frser_operation spi_run o d =
        .ok { d with tx := d.tx ++ data.take ca.len,
                     log := d.log ++ writes (data.take ca.len) } :=
  frser_operation_const_ok spi_run o d ca ho hca hlen

/-- Witness of C2 at the serial buffer size opcode 0x04. -/
theorem frser_operation_const_answer_witness :
    (0x04 ≤ S_MAXCMD ∧ const_table[0x04]? = some ⟨3, some ca_serbuf⟩ ∧
      (⟨3, some ca_serbuf⟩ : constanswer).len ≠ 0) ∧
    (∃ data, (⟨3, some ca_serbuf⟩ : constanswer).data = some data ∧
      (⟨3, some ca_serbuf⟩ : constanswer).len ≤ data.length ∧
      frser_operation chip_aabbcc 0x04 spiop_example =
        .ok { spiop_example with
              tx := spiop_example.tx ++ data.take (⟨3, some ca_serbuf⟩ : constanswer).len,
              log := spiop_example.log
                      ++ writes (data.take (⟨3, some ca_serbuf⟩ : constanswer).len) }) ∧
    observe (frser_operation chip_aabbcc 0x04 spiop_example)
      = some ([1, 0, 0, 3, 0, 0, 0x9F], [], [0x06, 0x02, 0x00], []) ∧
    events (frser_operation chip_aabbcc 0x04 spiop_example)
      = some [Event.wr 0x06, Event.wr 0x02, Event.wr 0x00] :=
  ⟨⟨by decide, rfl, by decide⟩,
   frser_operation_const_answer chip_aabbcc 0x04 spiop_example ⟨3, some ca_serbuf⟩
     (by decide) rfl (by decide),
   by decide, by decide⟩

/-- C3: for every SPI-operation request (opcode 0x13) whose header carries
the write count `w` (header byte 0) and the read count `r` (header byte 3),
followed by a payload of `w` bytes, `frser_operation` reads the header and
the payload, then invokes `spi_cmd_txrx` exactly once, with `tx_size = w`,
`rx_size = r` and the payload as outgoing buffer, and only then writes
exactly `1 + r` bytes: 0x06 followed by the first `r` bytes of the incoming
buffer `inb` that the primitive filled.  The event log of the run is, in this
order, the reads, the one transfer and the writes. -/
theorem frser_operation_spiop_transfer (spi_run : Spi → Spi) (d : Dev)
    (w r h1 h2 h4 h5 : Nat) (payload rest : List Nat)
    (hw : w < 256) (hr : r < 256) (hlen : payload.length = w)
    (hbytes : ∀ b ∈ payload, b < 256)
    (hrx : d.rx = [w, h1, h2, r, h4, h5] ++ payload ++ rest) :
    ∃ inb d2,
      spi_cmd_txrx spi_run w r payload 256
          { d with rx := rest, rd := d.rd ++ [w, u8 h1, u8 h2, r, u8 h4, u8 h5] ++ payload,
                   log := d.log ++ reads ([w, h1, h2, r, h4, h5] ++ payload) }
        = .ok (inb, d2) ∧
      d2.calls = d.calls ++ [⟨w, r, payload⟩] ∧
      frser_operation spi_run 0x13 d =
        .ok { d2 with tx := d.tx ++ 0x06 :: inb.take r,
                      log := d.log ++ reads ([w, h1, h2, r, h4, h5] ++ payload)
                              ++ [Event.xfer ⟨w, r, payload⟩]
                              ++ writes (0x06 :: inb.take r) } ∧
      (0x06 :: inb.take r).length = 1 + r := by
  have hmain := frser_operation_spiop_ok spi_run d w h1 h2 r h4 h5 (payload ++ rest)
    (by simpa using hrx) (by rw [u8_of_lt hw]; simp [hlen])
  have htake : List.take w (payload ++ rest) = payload := by
    rw [← hlen]; simp
  have hdrop : List.drop w (payload ++ rest) = rest := by
    rw [← hlen]; simp
  rw [u8_of_lt hw, u8_of_lt hr, htake, hdrop, map_u8_of_lt hbytes] at hmain
  refine ⟨memcpy_from_window
      (spi_run ⟨memcpy_to_window d.spi.data payload w, w, r⟩).data w r,
    { rx := rest, rd := d.rd ++ [w, u8 h1, u8 h2, r, u8 h4, u8 h5] ++ payload, tx := d.tx,
      spi := spi_run ⟨memcpy_to_window d.spi.data payload w, w, r⟩,
      calls := d.calls ++ [⟨w, r, payload⟩],
      log := d.log ++ reads ([w, h1, h2, r, h4, h5] ++ payload)
              ++ [Event.xfer ⟨w, r, payload⟩] }, ?_, ?_, ?_, ?_⟩
  · simp only [spi_cmd_txrx, hlen, le_refl, if_true, Nat.le_of_lt hr]
  · rfl
  · rw [hmain]
    simp [List.take_of_length_le, memcpy_from_window_length, S_ACK, reads]
  · simp [memcpy_from_window_length]
    omega

/-- Witness of C3: header `01 00 00 03 00 00`, payload `9F` and a chip
answering `AA BB CC`; the reply is `06 AA BB CC` after one transfer
(1 byte out, 3 bytes in), and the events are seven reads, the transfer and
four writes, in this order. -/
theorem frser_operation_spiop_transfer_witness :
    (1 < 256 ∧ 3 < 256 ∧ [0x9F].length = 1 ∧ (∀ b ∈ [0x9F], b < 256)) ∧
    (∃ inb d2,
      spi_cmd_txrx chip_aabbcc 1 3 [0x9F] 256
          { spiop_example with
            rx := [], rd := spiop_example.rd ++ [1, u8 0, u8 0, 3, u8 0, u8 0] ++ [0x9F],
            log := spiop_example.log ++ reads ([1, 0, 0, 3, 0, 0] ++ [0x9F]) }
        = .ok (inb, d2) ∧
      d2.calls = spiop_example.calls ++ [⟨1, 3, [0x9F]⟩] ∧
      frser_operation chip_aabbcc 0x13 spiop_example
        = .ok { d2 with tx := spiop_example.tx ++ 0x06 :: inb.take 3,
                        log := spiop_example.log ++ reads ([1, 0, 0, 3, 0, 0] ++ [0x9F])
                                ++ [Event.xfer ⟨1, 3, [0x9F]⟩]
                                ++ writes (0x06 :: inb.take 3) } ∧
      (0x06 :: inb.take 3).length = 1 + 3) ∧
    observe (frser_operation chip_aabbcc 0x13 spiop_example)
      = some ([], [1, 0, 0, 3, 0, 0, 0x9F], [0x06, 0xAA, 0xBB, 0xCC], [⟨1, 3, [0x9F]⟩]) ∧
    events (frser_operation chip_aabbcc 0x13 spiop_example)
      = some [Event.rd 1, Event.rd 0, Event.rd 0, Event.rd 3, Event.rd 0, Event.rd 0,
              Event.rd 0x9F, Event.xfer ⟨1, 3, [0x9F]⟩,
              Event.wr 0x06, Event.wr 0xAA, Event.wr 0xBB, Event.wr 0xCC] :=
  ⟨⟨by decide, by decide, rfl, by decide⟩,
   frser_operation_spiop_transfer chip_aabbcc spiop_example 1 3 0 0 0 0 [0x9F] []
     (by decide) (by decide) rfl (by decide) rfl,
   by decide, by decide⟩

/-- C5, as stated, fails at the read-byte opcode 0x09: it is in range, has
the non-zero parameter length 3 and is not the SPI operation, yet after
reading its three parameter bytes the device writes 0x15, not 0x06. -/
theorem read_byte_opcode_is_refused :
    0x09 ≤ S_MAXCMD ∧ op2len[0x09]? = some 3 ∧ 0x09 ≠ S_CMD_O_SPIOP ∧
    observe (frser_operation chip_aabbcc 0x09 ⟨[0x10, 0x20, 0x30], [], [], spi_idle, [], []⟩)
      = some ([], [0x10, 0x20, 0x30], [0x15], []) := by
  decide

/-- C5 (amended): for every opcode `o ≤ S_MAXCMD` with non-zero parameter
length `op2len[o]` other than the SPI operation 0x13, `frser_operation o`
reads exactly `op2len[o]` bytes and writes exactly one byte: 0x06 for set
delay (0x0E) and set bus type (0x12), 0x15 for the others.  The events of the
run are these reads followed by the one write. -/
theorem frser_operation_fixed_params (spi_run : Spi → Spi) (o : Nat) (d : Dev) (p : Nat)
    (ho : o ≤ S_MAXCMD) (hp : op2len[o]? = some p) (hp0 : p ≠ 0)
    (hne : o ≠ S_CMD_O_SPIOP) (hrx : p ≤ d.rx.length) :
    frser_operation spi_run o d =
      .ok { d with rx := d.rx.drop p, rd := d.rd ++ (d.rx.take p).map u8,
                   tx := d.tx ++ [if o = 0x0E ∨ o = 0x12 then 0x06 else 0x15],
                   log := d.log ++ reads (d.rx.take p)
                            ++ writes [if o = 0x0E ∨ o = 0x12 then 0x06 else 0x15] } := by
  obtain ⟨ca, hca⟩ := const_table_defined o ho
  have hlen : ca.len = 0 := by
    unfold S_MAXCMD at ho
    interval_cases o <;> simp [const_table] at hca <;> subst hca <;>
      simp [op2len] at hp <;> first | rfl | exact absurd hp.symm hp0
  exact frser_operation_params_ok spi_run o d ca p ho hca hlen hp hne hrx

/-- Witness of the amended C5 at set delay (0x0E) with five bytes pending:
four are read and 0x06 is written. -/
theorem frser_operation_fixed_params_witness :
    (0x0E ≤ S_MAXCMD ∧ op2len[0x0E]? = some 4 ∧ 4 ≠ 0 ∧ 0x0E ≠ S_CMD_O_SPIOP ∧
      4 ≤ [1, 2, 3, 4, 5].length) ∧
    frser_operation chip_aabbcc 0x0E ⟨[1, 2, 3, 4, 5], [], [], spi_idle, [], []⟩ =
      .ok ⟨[1, 2, 3, 4, 5].drop 4, [] ++ ([1, 2, 3, 4, 5].take 4).map u8,
           [] ++ [if 0x0E = 0x0E ∨ 0x0E = 0x12 then 0x06 else 0x15], spi_idle, [],
           [] ++ reads ([1, 2, 3, 4, 5].take 4)
             ++ writes [if 0x0E = 0x0E ∨ 0x0E = 0x12 then 0x06 else 0x15]⟩ ∧
    observe (frser_operation chip_aabbcc 0x0E ⟨[1, 2, 3, 4, 5], [], [], spi_idle, [], []⟩)
      = some ([5], [1, 2, 3, 4], [0x06], []) ∧
    events (frser_operation chip_aabbcc 0x0E ⟨[1, 2, 3, 4, 5], [], [], spi_idle, [], []⟩)
      = some [Event.rd 1, Event.rd 2, Event.rd 3, Event.rd 4, Event.wr 0x06] :=
  ⟨⟨by decide, rfl, by decide, by decide, by decide⟩,
   frser_operation_fixed_params chip_aabbcc 0x0E ⟨[1, 2, 3, 4, 5], [], [], spi_idle, [], []⟩ 4
     (by decide) rfl (by decide) (by decide) (by decide),
   by decide, by decide⟩

/-- C6: every opcode `o ≤ S_MAXCMD` with an empty constant answer that is
none of set delay (0x0E), set bus type (0x12) and SPI operation (0x13) is
one of 0x06, 0x09, 0x0A, 0x0C, 0x0D; its parameter length `op2len[o]` is
0, 3, 6, 4, 0 respectively; `frser_operation o` first reads exactly that many
bytes and then writes exactly the single byte 0x15: the events of the run are
the reads followed by the one write.  While fewer bytes are pending the run
reads what there is and blocks with nothing written. -/
theorem frser_operation_unimplemented (spi_run : Spi → Spi) (o : Nat) (d : Dev)
    (ca : constanswer) (ho : o ≤ S_MAXCMD) (hca : const_table[o]? = some ca)
    (hlen : ca.len = 0) (h1 : o ≠ S_CMD_O_DELAY) (h2 : o ≠ S_CMD_S_BUSTYPE)
    (h3 : o ≠ S_CMD_O_SPIOP) :
    (o = 0x06 ∨ o = 0x09 ∨ o = 0x0A ∨ o = 0x0C ∨ o = 0x0D) ∧
    ∃ p, op2len[o]? = some p ∧
      p = (if o = 0x09 then 3 else if o = 0x0A then 6 else if o = 0x0C then 4 else 0) ∧
      (p ≤ d.rx.length →
        frser_operation spi_run o d =
          .ok { d with rx := d.rx.drop p, rd := d.rd ++ (d.rx.take p).map u8,
                       tx := d.tx ++ [0x15],
                       log := d.log ++ reads (d.rx.take p) ++ [Event.wr 0x15] } ∧
        (reads (d.rx.take p)).length = p) ∧
      (d.rx.length < p →
        frser_operation spi_run o d =
          .error (.starved { d with rx := [], rd := d.rd ++ d.rx.map u8,
                                    log := d.log ++ reads d.rx })) := by
  obtain ⟨p, hp⟩ := op2len_defined o ho
  have hok := frser_operation_params_ok spi_run o d ca p ho hca hlen hp h3
  have hst := frser_operation_params_starved spi_run o d ca p ho hca hlen hp h3
  have hnak : (if o = S_CMD_O_DELAY ∨ o = S_CMD_S_BUSTYPE then S_ACK else S_NAK) = 0x15 := by
    simp [h1, h2, S_NAK]
  rw [hnak] at hok
  have hcases : (o = 0x06 ∨ o = 0x09 ∨ o = 0x0A ∨ o = 0x0C ∨ o = 0x0D) ∧
      p = (if o = 0x09 then 3 else if o = 0x0A then 6 else if o = 0x0C then 4 else 0) := by
    unfold S_MAXCMD at ho
    unfold S_CMD_O_DELAY at h1
    unfold S_CMD_S_BUSTYPE at h2
    unfold S_CMD_O_SPIOP at h3
    interval_cases o <;> simp [const_table] at hca <;> subst hca <;>
      simp at hlen <;> simp [op2len] at hp <;> subst hp <;> simp at h1 h2 h3 ⊢
  refine ⟨hcases.1, p, hp, hcases.2, fun hle => ⟨hok hle, ?_⟩, hst⟩
  simp [reads, List.length_take, hle]

/-- Witness of C6 at the read-n opcode 0x0A with seven bytes pending: six
reads, then the write of 0x15; with only two bytes pending the run blocks
after two reads and no write. -/
theorem frser_operation_unimplemented_witness :
    (0x0A ≤ S_MAXCMD ∧ const_table[0x0A]? = some ⟨0, none⟩ ∧
      (⟨0, none⟩ : constanswer).len = 0 ∧ 0x0A ≠ S_CMD_O_DELAY ∧ 0x0A ≠ S_CMD_S_BUSTYPE ∧
      0x0A ≠ S_CMD_O_SPIOP) ∧
    ((0x0A = 0x06 ∨ 0x0A = 0x09 ∨ 0x0A = 0x0A ∨ 0x0A = 0x0C ∨ 0x0A = 0x0D) ∧
    ∃ p, op2len[0x0A]? = some p ∧
      p = (if 0x0A = 0x09 then 3 else if 0x0A = 0x0A then 6 else if 0x0A = 0x0C then 4 else 0) ∧
      (p ≤ spiop_example.rx.length →
        frser_operation chip_aabbcc 0x0A spiop_example =
          .ok { spiop_example with
                rx := spiop_example.rx.drop p,
                rd := spiop_example.rd ++ (spiop_example.rx.take p).map u8,
                tx := spiop_example.tx ++ [0x15],
                log := spiop_example.log ++ reads (spiop_example.rx.take p)
                        ++ [Event.wr 0x15] } ∧
        (reads (spiop_example.rx.take p)).length = p) ∧
      (spiop_example.rx.length < p →
        frser_operation chip_aabbcc 0x0A spiop_example =
          .error (.starved { spiop_example with
                             rx := [],
                             rd := spiop_example.rd ++ spiop_example.rx.map u8,
                             log := spiop_example.log ++ reads spiop_example.rx }))) ∧
    observe (frser_operation chip_aabbcc 0x0A spiop_example)
      = some ([0x9F], [1, 0, 0, 3, 0, 0], [0x15], []) ∧
    events (frser_operation chip_aabbcc 0x0A spiop_example)
      = some [Event.rd 1, Event.rd 0, Event.rd 0, Event.rd 3, Event.rd 0, Event.rd 0,
              Event.wr 0x15] ∧
    frser_operation chip_aabbcc 0x0A ⟨[0x11, 0x22], [], [], spi_idle, [], []⟩
      = .error (.starved ⟨[], [0x11, 0x22], [], spi_idle, [],
          [Event.rd 0x11, Event.rd 0x22]⟩) :=
  ⟨⟨by decide, rfl, rfl, by decide, by decide, by decide⟩,
   frser_operation_unimplemented chip_aabbcc 0x0A spiop_example ⟨0, none⟩
     (by decide) rfl rfl (by decide) (by decide) (by decide),
   by decide, by decide, rfl⟩

/-- C7: for the sync opcode 0x10 `frser_operation` returns having written
exactly the two bytes 0x15, 0x06, in that order; it reads nothing and changes
nothing else: the events of the run are these two writes. -/
theorem frser_operation_syncnop (spi_run : Spi → Spi) (d : Dev) :
    frser_operation spi_run 0x10 d =
      .ok { d with tx := d.tx ++ [0x15, 0x06],
                   log := d.log ++ [Event.wr 0x15, Event.wr 0x06] } := by
  have hlen : 2 ≤ ca_syncnop.length := by decide
  have htake : List.take 2 ca_syncnop = [0x15, 0x06] := by decide
  simp [frser_operation, S_MAXCMD, lookup, const_table, serial_write, hlen, htake]

/-- C8, as stated, fails at the sync opcode 0x10: its constant answer is
non-empty and starts with 0x15, not with 0x06. -/
theorem sync_answer_starts_with_nak :
    0x10 ≤ S_MAXCMD ∧ const_table[0x10]? = some ⟨2, some ca_syncnop⟩ ∧
    ca_syncnop.take 2 = [0x15, 0x06] ∧ (ca_syncnop.take 2).head? ≠ some 0x06 := by
  decide

/-- C8 (amended): for every opcode `o ≤ S_MAXCMD` with a non-empty constant
answer, the first byte of that answer is 0x06, except for the sync opcode
0x10, whose answer starts with 0x15. -/
theorem const_answer_first_byte (o : Nat) (ca : constanswer) (ho : o ≤ S_MAXCMD)
    (hca : const_table[o]? = some ca) (hlen : ca.len ≠ 0) :
    ∃ data, ca.data = some data ∧
      (data.take ca.len).head? = some (if o = 0x10 then 0x15 else 0x06) := by
  unfold S_MAXCMD at ho
  interval_cases o <;> simp [const_table] at hca <;> subst hca <;>
    first
    | exact absurd rfl hlen
    | exact ⟨_, rfl, by decide⟩

/-- Witness of the amended C8 at the programmer name opcode 0x03. -/
theorem const_answer_first_byte_witness :
    (0x03 ≤ S_MAXCMD ∧ const_table[0x03]? = some ⟨17, some ca_pgmname⟩ ∧
      (⟨17, some ca_pgmname⟩ : constanswer).len ≠ 0) ∧
    ∃ data, (⟨17, some ca_pgmname⟩ : constanswer).data = some data ∧
      (data.take (⟨17, some ca_pgmname⟩ : constanswer).len).head?
        = some (if 0x03 = 0x10 then 0x15 else 0x06) :=
  ⟨⟨by decide, rfl, by decide⟩,
   const_answer_first_byte 0x03 ⟨17, some ca_pgmname⟩ (by decide) rfl (by decide)⟩

/-- C9: for every opcode `o` in `[0, S_MAXCMD]` both tables have an entry, and
if `const_table[o].len` is non-zero then `op2len[o]` is zero. -/
theorem const_answer_excludes_params (o : Nat) (ho : o ≤ S_MAXCMD) :
    ∃ ca p, const_table[o]? = some ca ∧ op2len[o]? = some p ∧ (ca.len ≠ 0 → p = 0) := by
  unfold S_MAXCMD at ho
  interval_cases o <;> exact ⟨_, _, rfl, rfl, by decide⟩

/-- Witness of C9 at the operation buffer size opcode 0x07. -/
theorem const_answer_excludes_params_witness :
    0x07 ≤ S_MAXCMD ∧
    ∃ ca p, const_table[0x07]? = some ca ∧ op2len[0x07]? = some p ∧ (ca.len ≠ 0 → p = 0) :=
  ⟨by decide, const_answer_excludes_params 0x07 (by decide)⟩

/-- C10: `const_table` and `op2len` both have exactly `S_MAXCMD + 1 = 20`
entries, so a checked lookup succeeds exactly for the opcodes `o ≤ S_MAXCMD`;
and for every opcode, every device state and every hardware behaviour
`frser_operation` never ends in the out-of-range branch of a table lookup. -/
theorem table_lookups_in_range :
    const_table.length = S_MAXCMD + 1 ∧ op2len.length = S_MAXCMD + 1 ∧
    S_MAXCMD + 1 = 20 ∧
    (∀ o, (∃ ca, lookup const_table o = .ok ca) ↔ o ≤ S_MAXCMD) ∧
    (∀ o, (∃ p, lookup op2len o = .ok p) ↔ o ≤ S_MAXCMD) ∧
    (∀ (spi_run : Spi → Spi) (o : Nat) (d : Dev),
      frser_operation spi_run o d ≠ .error .index) := by
  have hc : const_table.length = 20 := by decide
  have hl : op2len.length = 20 := by decide
  refine ⟨by decide, by decide, by decide, ?_, ?_, ?_⟩
  · intro o
    unfold lookup S_MAXCMD
    constructor
    · rintro ⟨ca, h⟩
      by_contra hgt
      have hnone : const_table[o]? = none := List.getElem?_eq_none (by omega)
      rw [hnone] at h
      simp at h
    · intro ho
      obtain ⟨ca, hca⟩ := const_table_defined o ho
      exact ⟨ca, by rw [hca]⟩
  · intro o
    unfold lookup S_MAXCMD
    constructor
    · rintro ⟨p, h⟩
      by_contra hgt
      have hnone : op2len[o]? = none := List.getElem?_eq_none (by omega)
      rw [hnone] at h
      simp at h
    · intro ho
      obtain ⟨p, hp⟩ := op2len_defined o ho
      exact ⟨p, by rw [hp]⟩
  · intro spi_run o d h
    rcases frser_operation_total spi_run o d with ⟨d2, hok⟩ | hst
    · rw [hok] at h
      cases h
    · rw [hst] at h
      cases h

/-- C11, as stated, fails: with header `02 00 00 FF 00 00` (write count 2,
read count 255) the transfer is invoked with `2 + 255 = 257 > 256`; the
header is neither rejected nor clamped. -/
theorem spiop_counts_not_clamped :
    (observe (frser_operation chip_aabbcc 0x13
        ⟨[2, 0, 0, 0xFF, 0, 0, 0x11, 0x22], [], [], spi_idle, [], []⟩)).map (fun t => t.2.2.2)
      = some [⟨2, 255, [0x11, 0x22]⟩] ∧
    256 < 2 + 255 := by
  have h := frser_operation_spiop_ok chip_aabbcc
    ⟨[2, 0, 0, 0xFF, 0, 0, 0x11, 0x22], [], [], spi_idle, [], []⟩ 2 0 0 0xFF 0 0 [0x11, 0x22] rfl
    (by decide)
  rw [h]
  exact ⟨by simp [observe, u8], by decide⟩

/-- C11 (amended): for every SPI-operation request the transfer primitive is
invoked once with the write count and the read count exactly as header bytes
0 and 3 give them; each is at most 255, so their sum is at most 510, and no
header is rejected or clamped. -/
theorem frser_operation_spiop_counts (spi_run : Spi → Spi) (d : Dev)
    (h0 h1 h2 h3 h4 h5 : Nat) (rest : List Nat)
    (hrx : d.rx = h0 :: h1 :: h2 :: h3 :: h4 :: h5 :: rest)
    (hp : u8 h0 ≤ rest.length) :
    ∃ d1, frser_operation spi_run 0x13 d = .ok d1 ∧
      d1.calls = d.calls ++ [⟨u8 h0, u8 h3, (rest.take (u8 h0)).map u8⟩] ∧
      u8 h0 ≤ 255 ∧ u8 h3 ≤ 255 ∧ u8 h0 + u8 h3 ≤ 510 := by
  have hw := u8_lt h0
  have hr := u8_lt h3
  exact ⟨_, frser_operation_spiop_ok spi_run d h0 h1 h2 h3 h4 h5 rest hrx hp, rfl,
    by omega, by omega, by omega⟩

/-- Witness of the amended C11: header `02 00 00 FF 00 00` followed by the
two payload bytes `11 22`. -/
theorem frser_operation_spiop_counts_witness :
    ((⟨[2, 0, 0, 0xFF, 0, 0, 0x11, 0x22], [], [], spi_idle, [], []⟩ : Dev).rx
        = [2, 0, 0, 0xFF, 0, 0, 0x11, 0x22] ∧
      u8 2 ≤ [0x11, 0x22].length) ∧
    ∃ d1, frser_operation chip_aabbcc 0x13
        ⟨[2, 0, 0, 0xFF, 0, 0, 0x11, 0x22], [], [], spi_idle, [], []⟩ = .ok d1 ∧
      d1.calls = [] ++ [⟨u8 2, u8 0xFF, ([0x11, 0x22].take (u8 2)).map u8⟩] ∧
      u8 2 ≤ 255 ∧ u8 0xFF ≤ 255 ∧ u8 2 + u8 0xFF ≤ 510 :=
  ⟨⟨rfl, by decide⟩,
   frser_operation_spiop_counts chip_aabbcc _ 2 0 0 0xFF 0 0 [0x11, 0x22] rfl (by decide)⟩

/-- C12: the fixed announcement replies, byte for byte: NOP (0x00), init
opbuf (0x0B) and exec opbuf (0x0F) reply `06`; interface version (0x01)
replies `06 01 00`; serial buffer size (0x04) `06 02 00`; supported bus types
(0x05) `06 08`, where `08` has exactly bit 3 set; operation buffer size (0x07)
`06 80 00`; write-n maximum length (0x08) and read-n maximum length (0x11)
`06 80 00 00`.  Each run reads nothing and changes nothing else: its events
are the writes of these bytes. -/
theorem frser_operation_announcements (spi_run : Spi → Spi) (d : Dev) :
    frser_operation spi_run 0x00 d =
      .ok { d with tx := d.tx ++ [0x06], log := d.log ++ writes [0x06] } ∧
    frser_operation spi_run 0x0B d =
      .ok { d with tx := d.tx ++ [0x06], log := d.log ++ writes [0x06] } ∧
    frser_operation spi_run 0x0F d =
      .ok { d with tx := d.tx ++ [0x06], log := d.log ++ writes [0x06] } ∧
    frser_operation spi_run 0x01 d =
      .ok { d with tx := d.tx ++ [0x06, 0x01, 0x00], log := d.log ++ writes [0x06, 0x01, 0x00] } ∧
    frser_operation spi_run 0x04 d =
      .ok { d with tx := d.tx ++ [0x06, 0x02, 0x00], log := d.log ++ writes [0x06, 0x02, 0x00] } ∧
    frser_operation spi_run 0x05 d =
      .ok { d with tx := d.tx ++ [0x06, 0x08], log := d.log ++ writes [0x06, 0x08] } ∧
    CHIP_BUSTYPE_SPI = 0x08 ∧ 0x08 = 2 ^ 3 ∧
    frser_operation spi_run 0x07 d =
      .ok { d with tx := d.tx ++ [0x06, 0x80, 0x00], log := d.log ++ writes [0x06, 0x80, 0x00] } ∧
    frser_operation spi_run 0x08 d =
      .ok { d with tx := d.tx ++ [0x06, 0x80, 0x00, 0x00], log := d.log ++ writes [0x06, 0x80, 0x00, 0x00] } ∧
    frser_operation spi_run 0x11 d =
      .ok { d with tx := d.tx ++ [0x06, 0x80, 0x00, 0x00], log := d.log ++ writes [0x06, 0x80, 0x00, 0x00] } := by
  have h1 : List.take 1 ca_iface = [0x06] := by decide
  have h3 : List.take 3 ca_iface = [0x06, 0x01, 0x00] := by decide
  have hs : List.take 3 ca_serbuf = [0x06, 0x02, 0x00] := by decide
  have hb : List.take 2 ca_bustypes = [0x06, 0x08] := by decide
  have ho : List.take 3 ca_opbufsz = [0x06, 0x80, 0x00] := by decide
  have hw : List.take 4 ca_wrnlen = [0x06, 0x80, 0x00, 0x00] := by decide
  have hr : List.take 4 ca_rdnmaxlen = [0x06, 0x80, 0x00, 0x00] := by decide
  have l1 : 1 ≤ ca_iface.length := by decide
  have l3 : 3 ≤ ca_iface.length := by decide
  have ls : 3 ≤ ca_serbuf.length := by decide
  have lb : 2 ≤ ca_bustypes.length := by decide
  have lo : 3 ≤ ca_opbufsz.length := by decide
  have lw : 4 ≤ ca_wrnlen.length := by decide
  have lr : 4 ≤ ca_rdnmaxlen.length := by decide
  refine ⟨?_, ?_, ?_, ?_, ?_, ?_, by decide, by decide, ?_, ?_, ?_⟩ <;>
    simp [frser_operation, S_MAXCMD, lookup, const_table, serial_write, h1, h3, hs, hb, ho, hw,
      hr, l1, l3, ls, lb, lo, lw, lr, writes]

/-- C13, as stated, fails: the 16-byte name field of the programmer-name
reply is not NUL-free; its last six bytes are 0x00 (for instance the byte at
offset 10 of the field). -/
theorem pgmname_field_has_nul :
    const_table[0x03]? = some ⟨17, some ca_pgmname⟩ ∧
    (ca_pgmname.take 17).drop 1
      = [0x46, 0x65, 0x72, 0x6E, 0x6C, 0x79, 0x20, 0x53, 0x50, 0x49, 0, 0, 0, 0, 0, 0] ∧
    ((ca_pgmname.take 17).drop 1)[10]? = some 0x00 := by
  decide

/-- C13 (amended): the reply to the programmer-name opcode 0x03 is 17 bytes:
0x06 followed by a fixed-width 16-byte name field, which holds the ten
characters of `FRSER_NAME` ("Fernly SPI", none of them NUL) followed by six
NUL padding bytes; the events of the run are the writes of these 17 bytes. -/
theorem frser_operation_pgmname (spi_run : Spi → Spi) (d : Dev) :
    frser_operation spi_run 0x03 d
      = .ok { d with tx := d.tx ++ 0x06 :: (c_str FRSER_NAME ++ List.replicate 6 0),
                     log := d.log
                             ++ writes (0x06 :: (c_str FRSER_NAME ++ List.replicate 6 0)) } ∧
    (0x06 :: (c_str FRSER_NAME ++ List.replicate 6 0)).length = 17 ∧
    (c_str FRSER_NAME ++ List.replicate 6 0).length = 16 ∧
    (c_str FRSER_NAME).length = 10 ∧
    (∀ b ∈ c_str FRSER_NAME, b ≠ 0x00) := by
  have ht : List.take 17 ca_pgmname = 0x06 :: (c_str FRSER_NAME ++ List.replicate 6 0) := by
    decide
  have hl : 17 ≤ ca_pgmname.length := by decide
  refine ⟨?_, by decide, by decide, by decide, by decide⟩
  simp [frser_operation, S_MAXCMD, lookup, const_table, serial_write, ht, hl, writes]

/-- C15: `S_MAXLEN` is 6 and equals the largest entry of `op2len`; so for
every opcode `o ≤ S_MAXCMD` the parameter length `op2len[o]` is at most
`S_MAXLEN`, the parameter read of `frser_operation` (into the `S_MAXLEN`-byte
`parbuf`) never stores past the buffer, and no run of `frser_operation` ends
in a buffer overrun. -/
theorem parbuf_holds_parameters :
    S_MAXLEN = 6 ∧ op2len.foldl max 0 = S_MAXLEN ∧
    (∀ o, o ≤ S_MAXCMD →
      ∃ p, op2len[o]? = some p ∧ p ≤ S_MAXLEN ∧
        ∀ d : Dev, serial_read S_MAXLEN p d ≠ .error .overrun) ∧
    (∀ (spi_run : Spi → Spi) (o : Nat) (d : Dev),
      frser_operation spi_run o d ≠ .error .overrun) := by
  refine ⟨rfl, by decide, ?_, frser_operation_no_overrun⟩
  intro o ho
  obtain ⟨p, hp⟩ := op2len_defined o ho
  have hle : p ≤ S_MAXLEN := by
    unfold S_MAXCMD at ho
    interval_cases o <;> simp [op2len] at hp <;> subst hp <;> decide
  exact ⟨p, hp, hle, fun d => serial_read_no_overrun S_MAXLEN p d hle⟩

/-- C16: for every 6-byte parameter buffer (the `op2len[0x13] = 6` bytes read
for the SPI operation), every buffer access of `do_cmd_spiop` is in bounds:
the loads at offsets 0 and 3 succeed, the write count and the read count are
below 256, the sizes of `out` and `in`; the run either blocks waiting for
payload bytes (having read what there was and written nothing) or returns
after a transfer that filled exactly `rbytes` bytes of `in`, all of which
(and no others) follow 0x06 in the reply, written after the transfer. -/
theorem do_cmd_spiop_in_bounds (spi_run : Spi → Spi) (parbuf : List Nat) (d : Dev)
    (hlen : parbuf.length = 6) (hb : ∀ b ∈ parbuf, b < 256) :
    op2len[S_CMD_O_SPIOP]? = some parbuf.length ∧
    ∃ sbytes rbytes, load parbuf 0 = .ok sbytes ∧ load parbuf 3 = .ok rbytes ∧
      sbytes < 256 ∧ rbytes < 256 ∧
      ((d.rx.length < sbytes ∧
         do_cmd_spiop spi_run parbuf d =
           .error (.starved { d with rx := [], rd := d.rd ++ d.rx.map u8,
                                     log := d.log ++ reads d.rx })) ∨
       (∃ out d1 inb d2,
          serial_read 256 sbytes d = .ok (out, d1) ∧ out.length = sbytes ∧
          spi_cmd_txrx spi_run sbytes rbytes out 256 d1 = .ok (inb, d2) ∧
          inb.length = rbytes ∧
          do_cmd_spiop spi_run parbuf d =
            .ok { d2 with tx := d2.tx ++ S_ACK :: inb,
                          log := d2.log ++ writes (S_ACK :: inb) })) ∧
      do_cmd_spiop spi_run parbuf d ≠ .error .overrun := by
  obtain ⟨a, b, c, e, f, g, rest, rfl⟩ := six_or_more (Nat.le_of_eq hlen.symm)
  have hnil : rest = [] := by
    cases rest with
    | nil => rfl
    | cons x t => simp at hlen
  subst hnil
  have ha : a < 256 := hb a (by simp)
  have he : e < 256 := hb e (by simp)
  refine ⟨rfl, a, e, rfl, rfl, ha, he, ?_⟩
  by_cases hk : a ≤ d.rx.length
  · have hread := serial_read_ok 256 a d hk (Nat.le_of_lt ha)
    have hout : ((d.rx.take a).map u8).length = a := by
      simp [List.length_take, hk]
    have hin : ∀ win : Nat → Nat, List.take e (memcpy_from_window win a e) =
        memcpy_from_window win a e := fun win =>
      List.take_of_length_le (by rw [memcpy_from_window_length])
    have hrun : do_cmd_spiop spi_run [a, b, c, e, f, g] d =
        .ok { rx := d.rx.drop a, rd := d.rd ++ (d.rx.take a).map u8,
              tx := d.tx ++ S_ACK :: memcpy_from_window
                (spi_run ⟨memcpy_to_window d.spi.data ((d.rx.take a).map u8) a, a, e⟩).data a e,
              spi := spi_run ⟨memcpy_to_window d.spi.data ((d.rx.take a).map u8) a, a, e⟩,
              calls := d.calls ++ [⟨a, e, (d.rx.take a).map u8⟩],
              log := (d.log ++ reads (d.rx.take a) ++ [Event.xfer ⟨a, e, (d.rx.take a).map u8⟩])
                      ++ writes (S_ACK :: memcpy_from_window
                          (spi_run ⟨memcpy_to_window d.spi.data ((d.rx.take a).map u8) a,
                            a, e⟩).data a e) } := by
      simp only [do_cmd_spiop, load, List.getElem?_cons_succ, List.getElem?_cons_zero, hread,
        spi_cmd_txrx, hout, ↓reduceIte, Nat.le_of_lt he, serial_write, serial_putc,
        memcpy_from_window_length, le_refl, hin]
      simp [writes]
    refine ⟨Or.inr ⟨_, _, memcpy_from_window
        (spi_run ⟨memcpy_to_window d.spi.data ((d.rx.take a).map u8) a, a, e⟩).data a e,
      { rx := d.rx.drop a, rd := d.rd ++ (d.rx.take a).map u8, tx := d.tx,
        spi := spi_run ⟨memcpy_to_window d.spi.data ((d.rx.take a).map u8) a, a, e⟩,
        calls := d.calls ++ [⟨a, e, (d.rx.take a).map u8⟩],
        log := d.log ++ reads (d.rx.take a) ++ [Event.xfer ⟨a, e, (d.rx.take a).map u8⟩] },
      hread, hout, ?_, memcpy_from_window_length _ _ _, hrun⟩, ?_⟩
    · simp only [spi_cmd_txrx, hout, le_refl, if_true, Nat.le_of_lt he]
    · rw [hrun]
      intro h
      cases h
  · have hread := serial_read_starved 256 a d (Nat.lt_of_not_le hk) (Nat.le_of_lt ha)
    have hrun : do_cmd_spiop spi_run [a, b, c, e, f, g] d =
        .error (.starved { d with rx := [], rd := d.rd ++ d.rx.map u8,
                                  log := d.log ++ reads d.rx }) := by
      simp [do_cmd_spiop, load, hread]
    refine ⟨Or.inl ⟨Nat.lt_of_not_le hk, hrun⟩, ?_⟩
    rw [hrun]
    intro h
    cases h

/-- Witness of C16: parameter buffer `01 00 00 03 00 00` with the payload
byte `9F` pending. -/
theorem do_cmd_spiop_in_bounds_witness :
    ([1, 0, 0, 3, 0, 0].length = 6 ∧ ∀ b ∈ [1, 0, 0, 3, 0, 0], b < 256) ∧
    observe (do_cmd_spiop chip_aabbcc [1, 0, 0, 3, 0, 0] ⟨[0x9F], [], [], spi_idle, [], []⟩)
      = some ([], [0x9F], [0x06, 0xAA, 0xBB, 0xCC], [⟨1, 3, [0x9F]⟩]) ∧
    events (do_cmd_spiop chip_aabbcc [1, 0, 0, 3, 0, 0] ⟨[0x9F], [], [], spi_idle, [], []⟩)
      = some [Event.rd 0x9F, Event.xfer ⟨1, 3, [0x9F]⟩,
              Event.wr 0x06, Event.wr 0xAA, Event.wr 0xBB, Event.wr 0xCC] ∧
    do_cmd_spiop chip_aabbcc [1, 0, 0, 3, 0, 0] ⟨[0x9F], [], [], spi_idle, [], []⟩
      ≠ .error .overrun :=
  ⟨⟨rfl, by decide⟩, by decide, by decide,
   (do_cmd_spiop_in_bounds chip_aabbcc [1, 0, 0, 3, 0, 0] ⟨[0x9F], [], [], spi_idle, [], []⟩ rfl
     (by decide)).2.choose_spec.choose_spec.2.2.2.2.2⟩

/-- C19: for the SPI operation only header bytes 0 and 3 matter.  For two
6-byte headers that agree at offsets 0 and 3, followed by the same input and
run from the same state with the same hardware, either both runs block
(each having read all that was pending and written nothing), or both return
having consumed the same number of payload bytes, made the same transfer and
written the same reply, whatever header bytes 1, 2, 4, 5 are; the counts used
are the 24-bit lengths of the header taken modulo 256. -/
theorem spiop_uses_header_bytes_0_and_3 (spi_run : Spi → Spi) (d : Dev)
    (h0 h3 a1 a2 a4 a5 b1 b2 b4 b5 : Nat) (rest : List Nat) :
    (frser_operation spi_run 0x13 { d with rx := h0 :: a1 :: a2 :: h3 :: a4 :: a5 :: rest }
        = .error (.starved
            { d with rx := [],
                     rd := d.rd ++ (h0 :: a1 :: a2 :: h3 :: a4 :: a5 :: rest).map u8,
                     log := d.log ++ reads (h0 :: a1 :: a2 :: h3 :: a4 :: a5 :: rest) }) ∧
     frser_operation spi_run 0x13 { d with rx := h0 :: b1 :: b2 :: h3 :: b4 :: b5 :: rest }
        = .error (.starved
            { d with rx := [],
                     rd := d.rd ++ (h0 :: b1 :: b2 :: h3 :: b4 :: b5 :: rest).map u8,
                     log := d.log ++ reads (h0 :: b1 :: b2 :: h3 :: b4 :: b5 :: rest) })) ∨
    (∃ ea eb,
      frser_operation spi_run 0x13 { d with rx := h0 :: a1 :: a2 :: h3 :: a4 :: a5 :: rest }
        = .ok ea ∧
      frser_operation spi_run 0x13 { d with rx := h0 :: b1 :: b2 :: h3 :: b4 :: b5 :: rest }
        = .ok eb ∧
      ea.rx = rest.drop (u8 h0) ∧ eb.rx = rest.drop (u8 h0) ∧
      ea.tx = eb.tx ∧ ea.spi = eb.spi ∧ ea.calls = eb.calls ∧
      ea.calls = d.calls ++ [⟨(h0 + 256 * a1 + 65536 * a2) % 256,
                              (h3 + 256 * a4 + 65536 * a5) % 256,
                              (rest.take (u8 h0)).map u8⟩]) := by
  by_cases hp : u8 h0 ≤ rest.length
  · right
    have ha := frser_operation_spiop_ok spi_run
      { d with rx := h0 :: a1 :: a2 :: h3 :: a4 :: a5 :: rest } h0 a1 a2 h3 a4 a5 rest rfl hp
    have hb := frser_operation_spiop_ok spi_run
      { d with rx := h0 :: b1 :: b2 :: h3 :: b4 :: b5 :: rest } h0 b1 b2 h3 b4 b5 rest rfl hp
    refine ⟨_, _, ha, hb, rfl, rfl, rfl, rfl, rfl, ?_⟩
    have e0 : (h0 + 256 * a1 + 65536 * a2) % 256 = u8 h0 := by unfold u8; omega
    have e3 : (h3 + 256 * a4 + 65536 * a5) % 256 = u8 h3 := by unfold u8; omega
    rw [e0, e3]
  · left
    exact ⟨frser_operation_spiop_starved_payload spi_run _ h0 a1 a2 h3 a4 a5 rest rfl
        (Nat.lt_of_not_le hp),
      frser_operation_spiop_starved_payload spi_run _ h0 b1 b2 h3 b4 b5 rest rfl
        (Nat.lt_of_not_le hp)⟩

/-- C20: every `const_table` entry with non-zero length points to an array at
least as long as the declared length (`ca_iface[3]`, `ca_bitmap[33]`,
`ca_pgmname[17]`, `ca_serbuf[3]`, `ca_opbufsz[3]`, `ca_bustypes[2]`,
`ca_syncnop[2]`, `ca_wrnlen[4]`, `ca_rdnmaxlen[4]`), so writing a constant
answer never reads past its array; every zero-length entry has a `NULL` data
pointer. -/
theorem const_answers_within_arrays :
    (∀ ca ∈ const_table,
      (ca.len ≠ 0 → ∃ data, ca.data = some data ∧ ca.len ≤ data.length ∧
        ∀ d : Dev, serial_write data ca.len d =
          .ok { d with tx := d.tx ++ data.take ca.len,
                       log := d.log ++ writes (data.take ca.len) }) ∧
      (ca.len = 0 → ca.data = none)) ∧
    ca_iface.length = 3 ∧ ca_bitmap.length = 33 ∧ ca_pgmname.length = 17 ∧
    ca_serbuf.length = 3 ∧ ca_opbufsz.length = 3 ∧ ca_bustypes.length = 2 ∧
    ca_syncnop.length = 2 ∧ ca_wrnlen.length = 4 ∧ ca_rdnmaxlen.length = 4 := by
  refine ⟨?_, by decide, by decide, by decide, by decide, by decide, by decide, by decide,
    by decide, by decide⟩
  have key : ∀ (n : Nat) (data : List Nat), n ≤ data.length →
      ∃ data2, some data = some data2 ∧ n ≤ data2.length ∧
        ∀ d : Dev, serial_write data2 n d =
          .ok { d with tx := d.tx ++ data2.take n, log := d.log ++ writes (data2.take n) } :=
    fun n data hn => ⟨data, rfl, hn, fun d => by simp [serial_write, hn, writes]⟩
  intro ca hca
  simp only [const_table, List.mem_cons, List.mem_singleton, List.not_mem_nil, or_false] at hca
  rcases hca with h | h | h | h | h | h | h | h | h | h | h | h | h | h | h | h | h | h | h | h <;>
    subst h <;>
    first
    | exact ⟨fun hne => absurd rfl hne, fun _ => rfl⟩
    | exact ⟨fun _ => key _ _ (by decide), fun h0 => absurd h0 (by decide)⟩

/-- C17: the capability bitmap agrees with the dispatcher.  The reply to
opcode 0x02 is 0x06 followed by the 32 payload bytes of `ca_bitmap`.  For
every opcode byte `o` in 0..255, with 261 bytes pending (enough for any
request) `frser_operation o` returns with a reply that is not empty, and bit
`o mod 8` of payload byte `o div 8` is set if and only if that reply is
something other than the single byte 0x15; the same holds for every run that
returns, whatever was pending. -/
theorem bitmap_matches_dispatcher (spi_run : Spi → Spi) (o : Nat) (d : Dev)
    (ho : o < 256) (hlong : 261 ≤ d.rx.length) :
    frser_operation spi_run 0x02 d =
      .ok { d with tx := d.tx ++ 0x06 :: ca_bitmap.drop 1,
                   log := d.log ++ writes (0x06 :: ca_bitmap.drop 1) } ∧
    (ca_bitmap.drop 1).length = 32 ∧
    (∃ d1 reply, frser_operation spi_run o d = .ok d1 ∧ d1.tx = d.tx ++ reply ∧
      reply ≠ [] ∧ (bitmap_bit o = true ↔ reply ≠ [0x15])) ∧
    (∀ e e1 : Dev, frser_operation spi_run o e = .ok e1 →
      ∃ reply, e1.tx = e.tx ++ reply ∧ reply ≠ [] ∧
        (bitmap_bit o = true ↔ reply ≠ [0x15])) := by
  have ht : List.take 33 ca_bitmap = 0x06 :: ca_bitmap.drop 1 := by decide
  have hl : 33 ≤ ca_bitmap.length := by decide
  refine ⟨?_, by decide, ?_, ?_⟩
  · simp [frser_operation, S_MAXCMD, lookup, const_table, serial_write, ht, hl, writes]
  · obtain ⟨d1, h⟩ := frser_operation_returns spi_run o d hlong
    obtain ⟨reply, htx, hne, hbit⟩ := reply_matches_bitmap spi_run o d d1 ho h
    exact ⟨d1, reply, h, htx, hne, hbit⟩
  · intro e e1 h
    exact reply_matches_bitmap spi_run o e e1 ho h

/-- Witness of C17 at the SPI operation (0x13): its bit (bit 3 of payload
byte 2, `0F`) is set, and with 261 bytes pending, the first seven being the
request `01 00 00 03 00 00 9F`, the run returns after the events below, its
reply being `06 AA BB CC`. -/
theorem bitmap_matches_dispatcher_witness :
    (0x13 < 256 ∧ 261 ≤ spiop_long_example.rx.length) ∧
    (frser_operation chip_aabbcc 0x02 spiop_long_example =
        .ok { spiop_long_example with
              tx := spiop_long_example.tx ++ 0x06 :: ca_bitmap.drop 1,
              log := spiop_long_example.log ++ writes (0x06 :: ca_bitmap.drop 1) } ∧
     (ca_bitmap.drop 1).length = 32 ∧
     (∃ d1 reply, frser_operation chip_aabbcc 0x13 spiop_long_example = .ok d1 ∧
        d1.tx = spiop_long_example.tx ++ reply ∧
        reply ≠ [] ∧ (bitmap_bit 0x13 = true ↔ reply ≠ [0x15])) ∧
     (∀ e e1 : Dev, frser_operation chip_aabbcc 0x13 e = .ok e1 →
        ∃ reply, e1.tx = e.tx ++ reply ∧ reply ≠ [] ∧
          (bitmap_bit 0x13 = true ↔ reply ≠ [0x15]))) ∧
    bitmap_bit 0x13 = true ∧
    events (frser_operation chip_aabbcc 0x13 spiop_long_example)
      = some [Event.rd 1, Event.rd 0, Event.rd 0, Event.rd 3, Event.rd 0, Event.rd 0,
              Event.rd 0x9F, Event.xfer ⟨1, 3, [0x9F]⟩,
              Event.wr 0x06, Event.wr 0xAA, Event.wr 0xBB, Event.wr 0xCC] :=
  ⟨⟨by decide, spiop_long_example_length⟩,
   bitmap_matches_dispatcher chip_aabbcc 0x13 spiop_long_example (by decide)
     spiop_long_example_length,
   by decide, by decide⟩

/-- C18: for every opcode, every hardware behaviour and every state with at
least 261 bytes pending (six header bytes and the longest payload, 255
bytes), `frser_operation` returns and has written a non-empty reply whose
first byte is 0x06 or 0x15. -/
theorem frser_operation_always_answers (spi_run : Spi → Spi) (o : Nat) (d : Dev)
    (hlong : 261 ≤ d.rx.length) :
    ∃ d1 b rest, frser_operation spi_run o d = .ok d1 ∧ d1.tx = d.tx ++ b :: rest ∧
      (b = 0x06 ∨ b = 0x15) := by
  obtain ⟨d1, h⟩ := frser_operation_returns spi_run o d hlong
  obtain ⟨reply, htx, hcls⟩ := frser_operation_reply spi_run o d d1 h
  rcases hcls with ⟨_, hr⟩ | ⟨ho, ca, data, hca, hlen, hdata, hr⟩ |
      ⟨_, _, _, hr⟩ | ⟨_, inb, hr⟩
  · exact ⟨d1, 0x15, [], h, by rw [htx, hr]; rfl, Or.inr rfl⟩
  · rcases const_reply_head o ca data ho hca hlen hdata with hh | hh
    · obtain ⟨rest, hrest⟩ := cons_of_head_some hh
      exact ⟨d1, 0x06, rest, h, by rw [htx, hr, hrest]; rfl, Or.inl rfl⟩
    · obtain ⟨rest, hrest⟩ := cons_of_head_some hh
      exact ⟨d1, 0x15, rest, h, by rw [htx, hr, hrest]; rfl, Or.inr rfl⟩
  · by_cases hc : o = S_CMD_O_DELAY ∨ o = S_CMD_S_BUSTYPE
    · exact ⟨d1, 0x06, [], h, by rw [htx, hr, if_pos hc]; rfl, Or.inl rfl⟩
    · exact ⟨d1, 0x15, [], h, by rw [htx, hr, if_neg hc]; rfl, Or.inr rfl⟩
  · exact ⟨d1, 0x06, inb, h, by rw [htx, hr]; rfl, Or.inl rfl⟩

/-- Witness of C18: the SPI operation with 261 zero bytes pending (write
count 0, read count 0). -/
theorem frser_operation_always_answers_witness :
    261 ≤ (⟨List.replicate 261 0, [], [], spi_idle, [], []⟩ : Dev).rx.length ∧
    ∃ d1 b rest,
      frser_operation chip_aabbcc 0x13 ⟨List.replicate 261 0, [], [], spi_idle, [], []⟩ = .ok d1 ∧
      d1.tx = [] ++ b :: rest ∧ (b = 0x06 ∨ b = 0x15) :=
  ⟨(List.length_replicate 261 0).ge,
   frser_operation_always_answers chip_aabbcc 0x13 ⟨List.replicate 261 0, [], [], spi_idle, [], []⟩
     (List.length_replicate 261 0).ge⟩

/-- C14: idempotence.  Let the request `op :: bytes` be complete: one pass
of the dispatch loop from state `d` with exactly this request pending returns
with nothing left pending, having appended `reply` to the output.  Then, for
a stateless hardware exchange, two passes with the request pending twice in
succession return with nothing left pending and have appended `reply` twice,
byte for byte. -/
theorem main_loop_idempotent (spi_run : Spi → Spi) (hs : stateless spi_run)
    (op : Nat) (bytes : List Nat) (d d1 : Dev) (hrx : d.rx = op :: bytes)
    (h1 : main_loop spi_run 1 d = .ok d1) (hdone : d1.rx = []) :
    ∃ reply d2, d1.tx = d.tx ++ reply ∧
      main_loop spi_run 2 { d with rx := (op :: bytes) ++ (op :: bytes) } = .ok d2 ∧
      d2.rx = [] ∧ d2.tx = d.tx ++ reply ++ reply := by
  have hf : frser_operation spi_run (u8 op)
      { d with rx := bytes, rd := d.rd ++ [u8 op], log := d.log ++ [Event.rd (u8 op)] }
      = .ok d1 := by
    rw [← main_loop_body_cons spi_run d op bytes hrx]
    simp only [main_loop] at h1
    cases hb : main_loop_body spi_run d with
    | error e => rw [hb] at h1; cases h1
    | ok x => rw [hb] at h1; exact h1
  obtain ⟨n, reply, hn, hd1, htx, hrep⟩ := frser_operation_replay spi_run hs (u8 op) _ d1 hf
  simp only at hn hd1 htx hrep
  have hnb : n = bytes.length := by
    rw [hdone] at hd1
    have := List.drop_eq_nil_iff.mp hd1.symm
    omega
  have htake : List.take n bytes = bytes := by
    rw [hnb]
    exact List.take_length bytes
  rw [htake] at hrep
  obtain ⟨e1, he1, he1rx, he1tx⟩ := hrep
    { d with rx := bytes ++ op :: bytes, rd := d.rd ++ [u8 op],
             log := d.log ++ [Event.rd (u8 op)] } (op :: bytes) rfl
  obtain ⟨e2, he2, he2rx, he2tx⟩ := hrep
    { e1 with rx := bytes, rd := e1.rd ++ [u8 op], log := e1.log ++ [Event.rd (u8 op)] } []
    (by simp)
  have hb1 : main_loop_body spi_run { d with rx := (op :: bytes) ++ (op :: bytes) } = .ok e1 := by
    rw [main_loop_body_cons spi_run _ op (bytes ++ op :: bytes) rfl]
    exact he1
  have hb2 : main_loop_body spi_run e1 = .ok e2 := by
    rw [main_loop_body_cons spi_run e1 op bytes he1rx]
    exact he2
  refine ⟨reply, e2, htx, ?_, he2rx, ?_⟩
  · simp only [main_loop, hb1, hb2]
  · rw [he2tx]
    simp only at he1tx
    rw [he1tx]

/-- Witness of C14: the SPI request `13 01 00 00 03 00 00 9F` against a chip
answering `AA BB CC`; sent twice, it is answered `06 AA BB CC` twice. -/
theorem main_loop_idempotent_witness :
    (stateless chip_aabbcc ∧
      main_loop chip_aabbcc 1 ⟨0x13 :: [1, 0, 0, 3, 0, 0, 0x9F], [], [], spi_idle, [], []⟩
        = .ok ⟨[], [0x13, 1, 0, 0, 3, 0, 0, 0x9F], [0x06, 0xAA, 0xBB, 0xCC],
            chip_aabbcc ⟨memcpy_to_window spi_idle.data [0x9F] 1, 1, 3⟩, [⟨1, 3, [0x9F]⟩],
            [Event.rd 0x13, Event.rd 1, Event.rd 0, Event.rd 0, Event.rd 3, Event.rd 0,
             Event.rd 0, Event.rd 0x9F, Event.xfer ⟨1, 3, [0x9F]⟩,
             Event.wr 0x06, Event.wr 0xAA, Event.wr 0xBB, Event.wr 0xCC]⟩) ∧
    (∃ reply d2, [0x06, 0xAA, 0xBB, 0xCC] = [] ++ reply ∧
      main_loop chip_aabbcc 2
        ⟨(0x13 :: [1, 0, 0, 3, 0, 0, 0x9F]) ++ (0x13 :: [1, 0, 0, 3, 0, 0, 0x9F]),
          [], [], spi_idle, [], []⟩ = .ok d2 ∧
      d2.rx = [] ∧ d2.tx = [] ++ reply ++ reply) ∧
    observe (main_loop chip_aabbcc 2
        ⟨(0x13 :: [1, 0, 0, 3, 0, 0, 0x9F]) ++ (0x13 :: [1, 0, 0, 3, 0, 0, 0x9F]),
          [], [], spi_idle, [], []⟩)
      = some ([], [0x13, 1, 0, 0, 3, 0, 0, 0x9F, 0x13, 1, 0, 0, 3, 0, 0, 0x9F],
          [0x06, 0xAA, 0xBB, 0xCC, 0x06, 0xAA, 0xBB, 0xCC],
          [⟨1, 3, [0x9F]⟩, ⟨1, 3, [0x9F]⟩]) :=
  ⟨⟨chip_aabbcc_stateless, rfl⟩,
   main_loop_idempotent chip_aabbcc chip_aabbcc_stateless 0x13 [1, 0, 0, 3, 0, 0, 0x9F]
     ⟨0x13 :: [1, 0, 0, 3, 0, 0, 0x9F], [], [], spi_idle, [], []⟩
     ⟨[], [0x13, 1, 0, 0, 3, 0, 0, 0x9F], [0x06, 0xAA, 0xBB, 0xCC],
       chip_aabbcc ⟨memcpy_to_window spi_idle.data [0x9F] 1, 1, 3⟩, [⟨1, 3, [0x9F]⟩],
       [Event.rd 0x13, Event.rd 1, Event.rd 0, Event.rd 0, Event.rd 3, Event.rd 0,
        Event.rd 0, Event.rd 0x9F, Event.xfer ⟨1, 3, [0x9F]⟩,
        Event.wr 0x06, Event.wr 0xAA, Event.wr 0xBB, Event.wr 0xCC]⟩
     rfl rfl rfl,
   by decide⟩

end Fernly
